import Mathlib

set_option maxRecDepth 8000
set_option maxHeartbeats 1000000

/-!
Verification of the u1-slicer-bridge package-manipulation core.

Shallow embedding of the Python sources under `apps/api/app/`:

* `copy_duplicator.py`   — grid layout for object duplication
* `scale_3mf.py`         — uniform / offset-only scale rewrites
* `multi_plate_parser.py`— plate detection, bounds, plate extraction
* `profile_embedder.py`  — profile padding and the settings-injection rewrite
* `gcode_layer_extractor.py` — toolpath layer/move extraction with decimation

Numbers are modelled as rationals (Python floats); machine strings that the
code parses into float lists are modelled as the parsed rational lists.
Definitions are translated from the source files; all theorems come after
the definitions.
-/

namespace U1

/-- Python `abs` on a rational, written so it reduces in the kernel. -/
def pyAbs (q : ℚ) : ℚ := if q < 0 then -q else q

/-- Floor of a rational as an integer, written so it reduces in the kernel
(the denominator of a normalized rational is positive, so flooring the
quotient of numerator by denominator is the floor of the rational). -/
def ratFloor (q : ℚ) : ℤ := Int.fdiv q.num q.den

/-! ## copy_duplicator.py -/

namespace CopyDuplicator

/-- Snapmaker U1 bed dimensions, `BED_SIZE_X` in `copy_duplicator.py`. -/
def BED_SIZE_X : ℚ := 270

/-- Snapmaker U1 bed dimensions, `BED_SIZE_Y` in `copy_duplicator.py`. -/
def BED_SIZE_Y : ℚ := 270

/-- Exact ceiling of the square root of a natural number; embeds the
Python expression `math.ceil(math.sqrt(copies))`. -/
def ceilSqrt (n : ℕ) : ℕ :=
  if Nat.sqrt n * Nat.sqrt n = n then Nat.sqrt n else Nat.sqrt n + 1

/-- The position list of `calculate_grid_layout` for the `copies ≥ 2` branch.
`i % cols` is the column and `i / cols` the row of copy `i`. -/
def gridPositions (objWidth objDepth spacing : ℚ) (n : ℕ) : List (ℚ × ℚ) :=
  let cols : ℕ := ceilSqrt n
  let rows : ℕ := (n + cols - 1) / cols
  let cellW : ℚ := objWidth + spacing
  let cellH : ℚ := objDepth + spacing
  let totalW : ℚ := (cols : ℚ) * cellW - spacing
  let totalH : ℚ := (rows : ℚ) * cellH - spacing
  let startX : ℚ := (BED_SIZE_X - totalW) / 2 + objWidth / 2
  let startY : ℚ := (BED_SIZE_Y - totalH) / 2 + objDepth / 2
  (List.range n).map fun i =>
    (startX + ((i % cols : ℕ) : ℚ) * cellW, startY + ((i / cols : ℕ) : ℚ) * cellH)

/-- `calculate_grid_layout` from `copy_duplicator.py`.  Raising `ValueError`
is modelled as `Except.error`; `rows = math.ceil(copies / cols)` is the exact
ceiling division. -/
def calculate_grid_layout (objWidth objDepth : ℚ) (copies : ℤ) (spacing : ℚ) :
    Except String (List (ℚ × ℚ)) :=
  if copies < 1 then .error "copies must be >= 1"
  else if copies = 1 then .ok [(BED_SIZE_X / 2, BED_SIZE_Y / 2)]
  else .ok (gridPositions objWidth objDepth spacing copies.toNat)

end CopyDuplicator

/-! ## scale_3mf.py

The two scale rewrites only read and write attributes of individual XML
elements (they walk `root.iter()`), so a model document is embedded as the
flat list of its elements in document order.  Attribute strings that the code
parses into float lists are modelled as the parsed rational lists; an element
records the attributes `scale_3mf.py` inspects (`transform` on items and
components, `key`/`value` on `model_settings` metadata elements). -/

namespace Scale3mf

/-- One XML element as seen by `scale_3mf.py`: its local tag name, its
`transform` attribute (parsed), and the `key`/`value` attribute pair used by
`Metadata/model_settings.config` metadata entries. -/
structure Elem where
  name : String
  transform : Option (List ℚ) := none
  key : Option String := none
  value : Option (List ℚ) := none
deriving DecidableEq

/-- A parsed XML part: its elements in document order (`root.iter()`). -/
abbrev Doc := List Elem

/-- `_scale_transform`: scale the nine basis entries of a 12-element
transform, and the three translation entries only when `scaleTranslation`
is set; anything that is not 12 values long is returned unchanged. -/
def scale_transform (values : List ℚ) (scaleFactor : ℚ) (scaleTranslation : Bool) :
    List ℚ :=
  match values with
  | [a, b, c, d, e, f, g, h, i, tx, ty, tz] =>
    [a * scaleFactor, b * scaleFactor, c * scaleFactor,
     d * scaleFactor, e * scaleFactor, f * scaleFactor,
     g * scaleFactor, h * scaleFactor, i * scaleFactor,
     if scaleTranslation then tx * scaleFactor else tx,
     if scaleTranslation then ty * scaleFactor else ty,
     if scaleTranslation then tz * scaleFactor else tz]
  | other => other

/-- `_scale_component_translation_only`: scale only the three translation
entries of a 12-element transform. -/
def scale_component_translation_only (values : List ℚ) (scaleFactor : ℚ) : List ℚ :=
  match values with
  | [a, b, c, d, e, f, g, h, i, tx, ty, tz] =>
    [a, b, c, d, e, f, g, h, i,
     tx * scaleFactor, ty * scaleFactor, tz * scaleFactor]
  | other => other

/-- `_scale_matrix_translation_only`: scale entries 3, 7 and 11 of a
16-element row-major matrix. -/
def scale_matrix_translation_only (values : List ℚ) (scaleFactor : ℚ) : List ℚ :=
  match values with
  | [a, b, c, tx, d, e, f, ty, g, h, i, tz, j, k, l, m] =>
    [a, b, c, tx * scaleFactor, d, e, f, ty * scaleFactor,
     g, h, i, tz * scaleFactor, j, k, l, m]
  | other => other

/-- The default transform set on an `item` element that has none
(`_scale_model_xml` writes a pure scale matrix). -/
def defaultScaleMatrix (f : ℚ) : List ℚ := [f, 0, 0, 0, f, 0, 0, 0, f, 0, 0, 0]

/-- Per-element action of `_scale_model_xml`: build items get their basis
scaled (translation preserved), components get their translation scaled. -/
def scaleModelElem (f : ℚ) (e : Elem) : Elem :=
  if e.name = "item" then
    match e.transform with
    | some t => { e with transform := some (scale_transform t f false) }
    | none => { e with transform := some (defaultScaleMatrix f) }
  else if e.name = "component" then
    match e.transform with
    | some t => { e with transform := some (scale_component_translation_only t f) }
    | none => e
  else e

/-- `_scale_model_xml` over the flattened document. -/
def scale_model_xml (doc : Doc) (f : ℚ) : Doc := doc.map (scaleModelElem f)

/-- Per-element action of `_scale_component_offsets_model_xml`: only
component translations are scaled. -/
def scaleComponentOffsetsElem (f : ℚ) (e : Elem) : Elem :=
  if e.name = "component" then
    match e.transform with
    | some t => { e with transform := some (scale_component_translation_only t f) }
    | none => e
  else e

/-- `_scale_component_offsets_model_xml` over the flattened document. -/
def scale_component_offsets_model_xml (doc : Doc) (f : ℚ) : Doc :=
  doc.map (scaleComponentOffsetsElem f)

/-- Per-element action of `_scale_component_offsets_model_settings_xml`:
`metadata` elements whose `key` is `"matrix"` get the translation entries of
their 16-element `value` scaled. -/
def scaleSettingsElem (f : ℚ) (e : Elem) : Elem :=
  if e.name = "metadata" then
    if e.key = some "matrix" then
      match e.value with
      | some v => { e with value := some (scale_matrix_translation_only v f) }
      | none => e
    else e
  else e

/-- `_scale_component_offsets_model_settings_xml` over the flattened
document. -/
def scale_component_offsets_model_settings_xml (doc : Doc) (f : ℚ) : Doc :=
  doc.map (scaleSettingsElem f)

/-- `MODEL_SETTINGS_PATH` in `scale_3mf.py`. -/
def MODEL_SETTINGS_PATH : String := "Metadata/model_settings.config"

/-- Content of one archive part: either a part that parses as XML (stored as
its flattened document) or opaque bytes. -/
inductive PartData where
  | xml (doc : Doc)
  | raw (bytes : List ℕ)
deriving DecidableEq

/-- An archive is its ordered part table. -/
abbrev Archive := List (String × PartData)

/-- Per-part action of the `apply_uniform_scale_to_3mf` rewrite loop.
`ET.fromstring` raising on a part that is not XML is modelled as
`Except.error`. -/
def uniformScalePart (f : ℚ) (name : String) (data : PartData) :
    Except Unit PartData :=
  if name.endsWith ".model" then
    match data with
    | .xml doc => .ok (.xml (scale_model_xml doc f))
    | .raw _ => .error ()
  else if name = MODEL_SETTINGS_PATH then
    .ok data
  else .ok data

/-- `apply_uniform_scale_to_3mf`: the `|scale_percent - 100| < 0.001` guard
short-circuits to a byte copy (`shutil.copy2`), otherwise every part is
rewritten through `uniformScalePart`. -/
def apply_uniform_scale_to_3mf (src : Archive) (scalePercent : ℚ) :
    Except Unit Archive :=
  if pyAbs (scalePercent - 100) < 1/1000 then .ok src
  else
    src.mapM fun p => (uniformScalePart (scalePercent / 100) p.1 p.2).map ((p.1, ·))

/-- Per-part action of the `apply_layout_scale_to_3mf` rewrite loop. -/
def layoutScalePart (f : ℚ) (name : String) (data : PartData) :
    Except Unit PartData :=
  if name.endsWith ".model" then
    match data with
    | .xml doc => .ok (.xml (scale_component_offsets_model_xml doc f))
    | .raw _ => .error ()
  else if name = MODEL_SETTINGS_PATH then
    match data with
    | .xml doc => .ok (.xml (scale_component_offsets_model_settings_xml doc f))
    | .raw _ => .error ()
  else .ok data

/-- `apply_layout_scale_to_3mf`: same no-op guard, offset-only rewrite
otherwise. -/
def apply_layout_scale_to_3mf (src : Archive) (scalePercent : ℚ) :
    Except Unit Archive :=
  if pyAbs (scalePercent - 100) < 1/1000 then .ok src
  else
    src.mapM fun p => (layoutScalePart (scalePercent / 100) p.1 p.2).map ((p.1, ·))

/-- Transforms of all elements named `tag`, in document order (the claims
quantify over build items / components anywhere in the model). -/
def collectTransforms (tag : String) (doc : Doc) : List (Option (List ℚ)) :=
  (doc.filter (fun e => e.name = tag)).map (·.transform)

end Scale3mf

/-! ## multi_plate_parser.py

The parser reads `3D/3dmodel.model`, walks the `<build>` items and derives
plate records.  A build item is modelled with the three attributes the
module reads; a model part is its optional build-item list plus an opaque
payload standing for everything else in the XML (resources, metadata),
which the operations modelled here never touch.  Vendor plate/object name
resolution only feeds the display name and is elided. -/

namespace MultiPlateParser

/-- One `<item>` of the `<build>` section, with the attributes
`multi_plate_parser.py` reads.  The `transform` attribute string is modelled
as its parsed rational list. -/
structure BuildItem where
  objectid : Option String := none
  printable : Option String := none
  transform : Option (List ℚ) := none
deriving DecidableEq

/-- The parsed `3D/3dmodel.model` part: the optional `<build>` item list and
an opaque payload for the rest of the document (resources, metadata), which
plate detection and extraction leave untouched. -/
structure ModelXml where
  build : Option (List BuildItem)
  rest : ℕ := 0
deriving DecidableEq

/-- Content of one archive part: the geometry model (parsed) or an opaque
non-model part. -/
inductive PartData where
  | model (m : ModelXml)
  | aux (payload : ℕ)
deriving DecidableEq

/-- A 3MF package: its ordered part table. -/
abbrev Package := List (String × PartData)

/-- Name of the geometry part. -/
def modelPath : String := "3D/3dmodel.model"

/-- First part with the given name (`zf.read`). -/
def lookupPart (pkg : Package) (name : String) : Option PartData :=
  (pkg.find? (fun p => p.1 = name)).map (·.2)

/-- One detected plate (`PlateInfo`).  The display-name resolution of the
source is elided; the remaining fields are as constructed by
`parse_multi_plate_3mf`. -/
structure PlateInfo where
  plate_id : ℕ
  object_id : String
  transform : List ℚ
  printable : Bool
deriving DecidableEq

/-- The identity 4x4 matrix used for invalid transform lengths. -/
def identity16 : List ℚ :=
  [1, 0, 0, 0, 0, 1, 0, 0, 0, 0, 1, 0, 0, 0, 0, 1]

/-- Transform normalization of `parse_multi_plate_3mf`: 12 values are padded
with the identity bottom row, anything that is not 12 or 16 values long is
replaced by the identity. -/
def normalizeTransform (vals : List ℚ) : List ℚ :=
  if vals.length = 12 then vals ++ [0, 0, 0, 1]
  else if vals.length ≠ 16 then identity16
  else vals

/-- The parsed form of the default transform attribute string
`"1 0 0 0 1 0 0 0 1 0 0 0 1"` (13 values). -/
def defaultTransform13 : List ℚ := [1, 0, 0, 0, 1, 0, 0, 0, 1, 0, 0, 0, 1]

/-- `List.map` with the element index, used for the enumerated item loops. -/
def enumMap (f : ℕ → α → β) : ℕ → List α → List β
  | _, [] => []
  | k, x :: xs => f k x :: enumMap f (k + 1) xs

/-- The `PlateInfo` built from item `i` (0-based) of the build list. -/
def mkPlate (i : ℕ) (it : BuildItem) : PlateInfo :=
  { plate_id := i + 1
    object_id := it.objectid.getD (toString (i + 1))
    transform := normalizeTransform ((it.transform).getD defaultTransform13)
    printable := (it.printable.getD "1") ≠ "0" }

/-- Failures of `parse_multi_plate_3mf` (all surfaced as `ValueError`). -/
inductive ParseErr where
  | missingModel
  | malformedXml
deriving DecidableEq

/-- `parse_multi_plate_3mf`: missing or unparsable geometry part is an
error; a missing build section or at most one item yields `([], False)`;
otherwise every item becomes a plate and the file is multi-plate. -/
def parse_multi_plate_3mf (pkg : Package) :
    Except ParseErr (List PlateInfo × Bool) :=
  match lookupPart pkg modelPath with
  | none => .error .missingModel
  | some (.aux _) => .error .malformedXml
  | some (.model m) =>
    match m.build with
    | none => .ok ([], false)
    | some items =>
      if items.length ≤ 1 then .ok ([], false)
      else
        let plates := enumMap mkPlate 0 items
        .ok (plates, decide (1 < plates.length))

/-- Failures of `extract_plate_to_3mf` (all surfaced as `ValueError`). -/
inductive ExtractErr where
  | parse (e : ParseErr)
  | plateNotFound
  | missingBuild
  | outOfRange
deriving DecidableEq

/-- `item.set("printable", v)`. -/
def setPrintable (it : BuildItem) (v : String) : BuildItem :=
  { it with printable := some v }

/-- `extract_plate_to_3mf`: single-plate sources are copied verbatim; for a
multi-plate source every build item is kept, the target (1-based) is marked
printable and all others non-printable, and every other part is copied
byte-identical. -/
def extract_plate_to_3mf (pkg : Package) (target : ℕ) :
    Except ExtractErr Package :=
  match parse_multi_plate_3mf pkg with
  | .error e => .error (.parse e)
  | .ok (plates, isMulti) =>
    if ¬ isMulti then .ok pkg
    else if ¬ plates.any (fun p => p.plate_id = target) then .error .plateNotFound
    else
      match lookupPart pkg modelPath with
      | some (.model m) =>
        match m.build with
        | none => .error .missingBuild
        | some items =>
          if target < 1 ∨ items.length < target then .error .outOfRange
          else
            let items' := enumMap
              (fun idx it => setPrintable it (if idx + 1 = target then "1" else "0"))
              0 items
            let m' : ModelXml := { m with build := some items' }
            .ok (pkg.map fun p =>
              if p.1 = modelPath then (p.1, PartData.model m') else p)
      | _ => .error (.parse .malformedXml)

/-! ### Bounds calculation (`_scan_vertex_bounds_from_element`,
`_calculate_xml_bounds`) -/

/-- A point in package space. -/
structure V3 where
  x : ℚ
  y : ℚ
  z : ℚ
deriving DecidableEq

/-- Accumulator step of the vertex scan: the running per-axis extrema start
at the first vertex (the source initializes them to plus/minus infinity). -/
def scanStep (acc : Option (V3 × V3)) (v : V3) : Option (V3 × V3) :=
  match acc with
  | none => some (v, v)
  | some (lo, hi) =>
    some (⟨min lo.x v.x, min lo.y v.y, min lo.z v.z⟩,
          ⟨max hi.x v.x, max hi.y v.y, max hi.z v.z⟩)

/-- `_scan_vertex_bounds_from_element`: per-axis running extrema over the
vertex list, `none` when there are no vertices. -/
def scan_vertex_bounds (vs : List V3) : Option (V3 × V3) :=
  vs.foldl scanStep none

/-- Translation extracted from an item transform by `_calculate_xml_bounds`:
entries 9, 10, 11 when at least 12 values are present, zero otherwise; a
missing attribute defaults to the identity 3x4 transform. -/
def itemTranslation (t : Option (List ℚ)) : V3 :=
  let vals := t.getD [1, 0, 0, 0, 1, 0, 0, 0, 1, 0, 0, 0]
  if 12 ≤ vals.length then ⟨vals.getD 9 0, vals.getD 10 0, vals.getD 11 0⟩
  else ⟨0, 0, 0⟩

/-- Per-item step of the `_calculate_xml_bounds` accumulation loop: resolve
the item's object, scan its vertices, shift the local extrema by the item
translation and union with the global extrema; unresolvable items are
skipped. -/
def boundsStep (objs : List (String × List V3)) (acc : Option (V3 × V3))
    (it : BuildItem) : Option (V3 × V3) :=
  match it.objectid with
  | none => acc
  | some oid =>
    match ((objs.find? (fun p => p.1 = oid)).map (·.2)) with
    | none => acc
    | some vs =>
      match scan_vertex_bounds vs with
      | none => acc
      | some (bmin, bmax) =>
        let t := itemTranslation it.transform
        let lo : V3 := ⟨bmin.x + t.x, bmin.y + t.y, bmin.z + t.z⟩
        let hi : V3 := ⟨bmax.x + t.x, bmax.y + t.y, bmax.z + t.z⟩
        match acc with
        | none => some (lo, hi)
        | some (glo, ghi) =>
          some (⟨min glo.x lo.x, min glo.y lo.y, min glo.z lo.z⟩,
                ⟨max ghi.x hi.x, max ghi.y hi.y, max ghi.z hi.z⟩)

/-- The extrema accumulation of `_calculate_xml_bounds` over the scanned
items, given the object map; when nothing resolves the bounds collapse to
the origin. -/
def calc_xml_bounds (objs : List (String × List V3)) (items : List BuildItem) :
    V3 × V3 :=
  (items.foldl (boundsStep objs) none).getD (⟨0, 0, 0⟩, ⟨0, 0, 0⟩)

end MultiPlateParser

/-! ## profile_embedder.py — array padding in the assignment-preserving path -/

namespace ProfileEmbedder

/-- A JSON config value as handled by the padding loop: a scalar string or
an array of strings. -/
inductive JVal where
  | s (v : String)
  | arr (vs : List String)
deriving DecidableEq

/-- The merged settings dictionary. -/
abbrev Config := List (String × JVal)

/-- `config.get(key)`. -/
def lookupKey (cfg : Config) (k : String) : Option JVal :=
  (cfg.find? (fun p => p.1 = k)).map (·.2)

/-- `config[key] = v`: replace in place when present, append otherwise. -/
def setKey (cfg : Config) (k : String) (v : JVal) : Config :=
  if (cfg.find? (fun p => p.1 = k)).isSome then
    cfg.map fun p => if p.1 = k then (p.1, v) else p
  else cfg ++ [(k, v)]

/-- `_ensure_list`: `None` becomes `[]`, a list stays, a scalar is wrapped. -/
def ensure_list (v : Option JVal) : List String :=
  match v with
  | none => []
  | some (.arr xs) => xs
  | some (.s x) => [x]

/-- `_pad_list`: for a positive target, an empty input becomes the default
singleton, then the last element is appended until the target length is
reached (the source's `while` loop always appends the constant original
last element). -/
def pad_list (values : List String) (targetLen : ℤ) (defaultValue : String) :
    List String :=
  if targetLen ≤ 0 then values
  else
    let vs := if values.isEmpty then [defaultValue] else values
    vs ++ List.replicate (targetLen.toNat - vs.length) (vs.getLastD defaultValue)

/-- `target_slots = max(assigned_count, requested_filament_count, 1)` in
`_build_assignment_preserving_config`. -/
def target_slots (assigned requested : ℤ) : ℤ :=
  max assigned (max requested 1)

/-- The `list_defaults` table of `_build_assignment_preserving_config`: the
array-valued keys that get padded, with their fallback singletons. -/
def list_defaults : List (String × List String) :=
  [("filament_type", ["PLA"]),
   ("filament_colour", ["#FFFFFF"]),
   ("extruder_colour", ["#FFFFFF"]),
   ("default_filament_profile", ["Snapmaker PLA"]),
   ("filament_settings_id", ["Snapmaker PLA"]),
   ("nozzle_temperature", ["210"]),
   ("nozzle_temperature_initial_layer", ["210"]),
   ("bed_temperature", ["60"]),
   ("bed_temperature_initial_layer", ["60"]),
   ("cool_plate_temp", ["60"]),
   ("cool_plate_temp_initial_layer", ["60"]),
   ("textured_plate_temp", ["60"]),
   ("textured_plate_temp_initial_layer", ["60"])]

/-- Body of the padding loop for one key: coerce to a list, substitute the
fallback when empty, pad to the slot count with the fallback's last element
as `_pad_list` default. -/
def paddedToolSetting (existing : Option JVal) (fallback : List String)
    (slots : ℤ) : List String :=
  let values := ensure_list existing
  let values := if values.isEmpty then fallback else values
  pad_list values slots (fallback.getLastD "")

/-- The padding loop of `_build_assignment_preserving_config` over a list of
key/fallback pairs (reading each key from the evolving config, as the
source does). -/
def padFold (defs : List (String × List String)) (cfg : Config) (slots : ℤ) :
    Config :=
  defs.foldl
    (fun c kf => setKey c kf.1 (.arr (paddedToolSetting (lookupKey c kf.1) kf.2 slots)))
    cfg

/-- The full padding pass: every `list_defaults` key padded to
`target_slots assigned requested`. -/
def padListDefaults (cfg : Config) (assigned requested : ℤ) : Config :=
  padFold list_defaults cfg (target_slots assigned requested)

end ProfileEmbedder

/-! ## gcode_layer_extractor.py

The extractor is a line-by-line state machine.  Commands are modelled after
the dispatch of `_process_command`: the four mode switches, `G92` resets,
`G0`/`G1` moves with their parsed axis words, and any other line (ignored).
The layer records carry two instrumentation fields (`qual`, `firstQual`)
that record how many qualifying, XY-displacing moves were routed to the
layer and the first of them; they are written exactly at the point where
the source increments `move_counter` and never influence the rest of the
state. -/

namespace GcodeExtractor

/-- The axis words of a `G0`/`G1`/`G92` line (`COORD_PATTERN`). -/
structure Coords where
  X : Option ℚ := none
  Y : Option ℚ := none
  Z : Option ℚ := none
  E : Option ℚ := none
deriving DecidableEq

/-- One retained preview move. -/
structure MoveRec where
  isExtrude : Bool
  x1 : ℚ
  y1 : ℚ
  x2 : ℚ
  y2 : ℚ
deriving DecidableEq

/-- One layer record (`self.layers[n]`), plus the two instrumentation
fields `qual` / `firstQual` (count and first of the layer's qualifying
moves). -/
structure LayerRec where
  z_height : ℚ
  moves : List MoveRec
  qual : ℕ
  firstQual : Option MoveRec
deriving DecidableEq

/-- Python's `round(q, digits)`: decimal rounding half to even. -/
def pyRound (q : ℚ) (digits : ℕ) : ℚ :=
  let p : ℚ := (10 : ℚ) ^ digits
  let s : ℚ := q * p
  let fl : ℤ := ratFloor s
  let frac : ℚ := s - fl
  let r : ℤ :=
    if frac < 1/2 then fl
    else if 1/2 < frac then fl + 1
    else if fl % 2 = 0 then fl else fl + 1
  (r : ℚ) / p

/-- The extractor state (`reset_state` fields). -/
structure ExtState where
  x : ℚ
  y : ℚ
  z : ℚ
  e : ℚ
  absolutePositioning : Bool
  absoluteExtrusion : Bool
  currentLayerNum : ℕ
  currentZ : ℚ
  layers : List (ℕ × LayerRec)
  moveCounter : ℕ
  decimationFactor : ℕ
deriving DecidableEq

/-- `reset_state`. -/
def reset_state : ExtState :=
  { x := 0, y := 0, z := 0, e := 0
    absolutePositioning := true, absoluteExtrusion := false
    currentLayerNum := 0, currentZ := 0, layers := []
    moveCounter := 0, decimationFactor := 100 }

/-- `self.layers.get(n)` over the insertion-ordered layer table. -/
def lookupLayer (layers : List (ℕ × LayerRec)) (n : ℕ) : Option LayerRec :=
  (layers.find? (fun p => p.1 = n)).map (·.2)

/-- Update the record stored under an existing layer number. -/
def updateLayer (layers : List (ℕ × LayerRec)) (n : ℕ)
    (f : LayerRec → LayerRec) : List (ℕ × LayerRec) :=
  layers.map fun p => if p.1 = n then (p.1, f p.2) else p

/-- The fresh record created by the "ensure layer exists" step. -/
def freshLayer (zh : ℚ) : LayerRec :=
  { z_height := zh, moves := [], qual := 0, firstQual := none }

/-- Tail of `_handle_move` for a qualifying (XY-displacing) move: ensure
the layer record exists, bump the global move counter and keep the move
when the counter hits the decimation factor or the layer has no retained
move yet.  (The two instrumentation fields are updated where the source
increments `move_counter`.) -/
def record_move (st' : ExtState) (counter' : ℕ) (mv : MoveRec) : ExtState :=
  let cur := st'.currentLayerNum
  let layers₁ :=
    if (lookupLayer st'.layers cur).isSome then st'.layers
    else st'.layers ++ [(cur, freshLayer (pyRound st'.currentZ 3))]
  let layers₂ := updateLayer layers₁ cur fun r =>
    { r with qual := r.qual + 1
             firstQual := match r.firstQual with
               | some f => some f
               | none => some mv }
  let layerMoves := ((lookupLayer layers₁ cur).getD (freshLayer 0)).moves
  let shouldKeep := counter' % st'.decimationFactor == 0 || layerMoves.isEmpty
  let layers₃ :=
    if shouldKeep then updateLayer layers₂ cur fun r => { r with moves := r.moves ++ [mv] }
    else layers₂
  { st' with layers := layers₃, moveCounter := counter' }

/-- Head of `_handle_move`: update the position from the axis words and
re-derive the current layer on a Z change beyond 0.001.  Layers and the
move counter are untouched. -/
def move_update (st : ExtState) (c : Coords) : ExtState :=
  let x' := match c.X with
    | some v => if st.absolutePositioning then v else st.x + v
    | none => st.x
  let y' := match c.Y with
    | some v => if st.absolutePositioning then v else st.y + v
    | none => st.y
  let z' := match c.Z with
    | some v => if st.absolutePositioning then v else st.z + v
    | none => st.z
  let zState : ℚ × ℕ :=
    match c.Z with
    | some _ =>
      if 1/1000 < pyAbs (z' - st.currentZ) then
        (z', (st.layers.filter (fun p => p.2.z_height ≤ z')).length)
      else (st.currentZ, st.currentLayerNum)
    | none => (st.currentZ, st.currentLayerNum)
  let e' := match c.E with
    | some v => if st.absoluteExtrusion then v else st.e + v
    | none => st.e
  { st with
    x := x', y := y', z := z', e := e'
    currentZ := zState.1, currentLayerNum := zState.2 }

/-- `_handle_move`: update the position, classify the move (extrusion iff
the extrusion value strictly increased), drop it unless it displaces in
XY, and otherwise record it via `record_move`. -/
def handle_move (st : ExtState) (c : Coords) : ExtState :=
  let st' := move_update st c
  if pyAbs (st'.x - st.x) < 1/1000 ∧ pyAbs (st'.y - st.y) < 1/1000 then st'
  else
    record_move st' (st.moveCounter + 1)
      { isExtrude := decide (st.e < st'.e)
        x1 := pyRound st.x 2, y1 := pyRound st.y 2
        x2 := pyRound st'.x 2, y2 := pyRound st'.y 2 }

/-- `_handle_position_reset` (`G92`). -/
def handle_position_reset (st : ExtState) (c : Coords) : ExtState :=
  { st with
    x := c.X.getD st.x, y := c.Y.getD st.y
    z := c.Z.getD st.z, e := c.E.getD st.e }

/-- One G-code line after comment stripping, as dispatched by
`_process_command`. -/
inductive Cmd where
  | g90
  | g91
  | m82
  | m83
  | g92 (c : Coords)
  | move (c : Coords)
  | other
deriving DecidableEq

/-- `_process_command`. -/
def process_command (st : ExtState) : Cmd → ExtState
  | .g90 => { st with absolutePositioning := true }
  | .g91 => { st with absolutePositioning := false }
  | .m82 => { st with absoluteExtrusion := true }
  | .m83 => { st with absoluteExtrusion := false }
  | .g92 c => handle_position_reset st c
  | .move c => handle_move st c
  | .other => st

/-- The main parse loop of `extract_layers`: reset, then process every
line. -/
def run (cmds : List Cmd) : ExtState :=
  cmds.foldl process_command reset_state

/-! Test inputs used in the decimation statements. -/

/-- A file of `n` absolute moves `X1, X2, ..., Xn`: every move displaces by
1 in X, so all of them qualify and they all land in layer 0. -/
def simpleCmds (n : ℕ) : List Cmd :=
  (List.range n).map fun i => Cmd.move { X := some ((i + 1 : ℕ) : ℚ) }

/-- The move record produced by the `j`-th command of `simpleCmds`. -/
def simpleMove (j : ℕ) : MoveRec :=
  { isExtrude := false
    x1 := pyRound ((j : ℚ) - 1) 2, y1 := pyRound 0 2
    x2 := pyRound (j : ℚ) 2, y2 := pyRound 0 2 }

/-- The 1-based counter positions retained among `n` qualifying moves of a
fresh single layer: the first move plus every multiple of 100. -/
def keptCounters (n : ℕ) : List ℕ :=
  (List.range n).filterMap fun i =>
    if i + 1 = 1 ∨ (i + 1) % 100 = 0 then some (i + 1) else none

/-- The retained move list for `simpleCmds n`. -/
def keptMoves (n : ℕ) : List MoveRec :=
  (keptCounters n).map simpleMove

/-- The full state after `simpleCmds n`. -/
def simpleState (n : ℕ) : ExtState :=
  { x := n, y := 0, z := 0, e := 0
    absolutePositioning := true, absoluteExtrusion := false
    currentLayerNum := 0, currentZ := 0
    layers :=
      if n = 0 then []
      else [(0, { z_height := pyRound 0 3, moves := keptMoves n, qual := n
                  firstQual := some (simpleMove 1) })]
    moveCounter := n, decimationFactor := 100 }

/-- A two-layer file: 98 qualifying moves in layer 0, a layer change, then
two qualifying moves (global counters 99 and 100) in layer 1. -/
def cexCmds : List Cmd :=
  simpleCmds 98 ++
    [Cmd.move { Z := some 1 },
     Cmd.move { X := some 99 },
     Cmd.move { X := some 100 }]

end GcodeExtractor

/-! ## Write discipline of the package rewrites

This models what each rewrite does to the destination file, including on
failure.  A source entry pairs the part with a `readable` flag
(`zin.read` raising on a corrupt member).  The scaling, duplication and
plate-extraction rewrites open the destination for writing and stream
entries into it, so when any step raises, the entries written so far are
flushed by the `with` block's close and remain at the destination.
`_copy_and_inject_settings` instead streams into `dest.with_suffix('.tmp')`,
unlinks the temp file on error and renames it over the destination only on
success. -/

namespace Rewrite

open Scale3mf

/-- One entry of the source archive as seen by a rewrite loop. -/
structure SrcPart where
  name : String
  readable : Bool
  data : PartData

/-- The destination file: `none` when no file exists there, otherwise the
archive entries it holds. -/
abbrev Dest := Option (List (String × PartData))

/-- The shared `for info in zin.infolist()` write loop: process entries one
by one, appending each result to the destination; a failing step stops the
loop with the entries written so far. -/
def directWriteLoop (step : SrcPart → Except Unit (Option (String × PartData))) :
    List SrcPart → List (String × PartData) →
    Except Unit Unit × List (String × PartData)
  | [], written => (.ok (), written)
  | p :: ps, written =>
    match step p with
    | .error e => (.error e, written)
    | .ok none => directWriteLoop step ps written
    | .ok (some out) => directWriteLoop step ps (written ++ [out])

/-- Per-entry step of `apply_uniform_scale_to_3mf`: read the entry, rewrite
model parts through `_scale_model_xml`. -/
def uniformScaleStep (f : ℚ) (p : SrcPart) :
    Except Unit (Option (String × PartData)) :=
  if ¬ p.readable then .error ()
  else (uniformScalePart f p.name p.data).map (fun d => some (p.name, d))

/-- The observable effect of `apply_uniform_scale_to_3mf source output pct`
on the destination: the no-op guard copies the source file; otherwise the
destination is opened for writing (so it exists from that point on) and on
any failure the partially written archive is left behind. -/
def apply_uniform_scale_run (src : List SrcPart) (pct : ℚ) (destBefore : Dest) :
    Except Unit Unit × Dest :=
  if pyAbs (pct - 100) < 1/1000 then
    (.ok (), some (src.map fun p => (p.name, p.data)))
  else
    let r := directWriteLoop (uniformScaleStep (pct / 100)) src []
    (r.1, some r.2)

/-- The Bambu metadata parts dropped by `_copy_and_inject_settings`. -/
def bambuMetadataFiles : List String :=
  ["Metadata/project_settings.config",
   "Metadata/slice_info.config",
   "Metadata/cut_information.xml",
   "Metadata/filament_sequence.json"]

/-- The skip rule of `_copy_and_inject_settings`: Bambu metadata and preview
images are not copied. -/
def injectSkips (name : String) : Bool :=
  name ∈ bambuMetadataFiles ||
    (name.startsWith "Metadata/plate" || name.startsWith "Metadata/top" ||
      name.startsWith "Metadata/pick")

/-- Per-entry step of `_copy_and_inject_settings`, parameterized by the
`_sanitize_model_settings` transformation (which swallows its own errors
and never raises). -/
def injectStep (sanitize : PartData → PartData) (p : SrcPart) :
    Except Unit (Option (String × PartData)) :=
  if injectSkips p.name then .ok none
  else if ¬ p.readable then .error ()
  else if p.name = "Metadata/model_settings.config" then
    .ok (some (p.name, sanitize p.data))
  else .ok (some (p.name, p.data))

/-- The observable effect of `_copy_and_inject_settings source dest json` on
the destination: everything is streamed into a temporary file, which on
error is removed (destination untouched) and on success atomically replaces
the destination. -/
def copy_and_inject_settings_run (sanitize : PartData → PartData)
    (src : List SrcPart) (settingsJson : PartData) (destBefore : Dest) :
    Except Unit Unit × Dest :=
  match directWriteLoop (injectStep sanitize) src [] with
  | (.ok _, written) =>
    (.ok (), some (written ++ [("Metadata/project_settings.config", settingsJson)]))
  | (.error e, _) => (.error e, destBefore)

/-- Per-entry step of the write loop of `apply_copies_to_3mf`, with the
rewritten model XML and patched settings computed before the loop. -/
def duplicateStep (newModel : PartData) (patchedSettings : Option PartData)
    (p : SrcPart) : Except Unit (Option (String × PartData)) :=
  if p.name = "3D/3dmodel.model" then .ok (some (p.name, newModel))
  else
    match patchedSettings with
    | some s =>
      if p.name = "Metadata/model_settings.config" then .ok (some (p.name, s))
      else if ¬ p.readable then .error () else .ok (some (p.name, p.data))
    | none => if ¬ p.readable then .error () else .ok (some (p.name, p.data))

/-- The observable effect of the write phase of `apply_copies_to_3mf` on
the destination (layout and model rewriting succeed before the output is
opened; entry reads can still fail mid-loop). -/
def apply_copies_write_run (newModel : PartData) (patchedSettings : Option PartData)
    (src : List SrcPart) (destBefore : Dest) : Except Unit Unit × Dest :=
  let r := directWriteLoop (duplicateStep newModel patchedSettings) src []
  (r.1, some r.2)

/-- Per-entry step of the write loop of `extract_plate_to_3mf`, with the
narrowed model XML computed before the loop. -/
def extractStep (updatedModel : PartData) (p : SrcPart) :
    Except Unit (Option (String × PartData)) :=
  if p.name = "3D/3dmodel.model" then .ok (some (p.name, updatedModel))
  else if ¬ p.readable then .error ()
  else .ok (some (p.name, p.data))

/-- The observable effect of the write phase of `extract_plate_to_3mf` on
the destination. -/
def extract_plate_write_run (updatedModel : PartData) (src : List SrcPart)
    (destBefore : Dest) : Except Unit Unit × Dest :=
  let r := directWriteLoop (extractStep updatedModel) src []
  (r.1, some r.2)

end Rewrite

/-! ## Concrete inputs used in the theorems below -/

namespace Fixtures

/-- A package whose geometry part has a `<build>` section with no items. -/
def emptyBuildPkg : MultiPlateParser.Package :=
  [(MultiPlateParser.modelPath, .model { build := some [] })]

/-- A package whose geometry part has no `<build>` section at all. -/
def noBuildPkg : MultiPlateParser.Package :=
  [(MultiPlateParser.modelPath, .model { build := none })]

/-- A two-item build list (multi-plate), items `"7"` and `"8"`. -/
def twoItems : List MultiPlateParser.BuildItem :=
  [{ objectid := some "7", printable := some "1",
     transform := some [1, 0, 0, 0, 1, 0, 0, 0, 1, 10, 20, 30] },
   { objectid := some "8", printable := some "1",
     transform := some [1, 0, 0, 0, 1, 0, 0, 0, 1, 140, 20, 30] }]

/-- A two-plate package with one auxiliary part. -/
def twoPlatePkg : MultiPlateParser.Package :=
  [(MultiPlateParser.modelPath, .model { build := some twoItems }),
   ("Metadata/model_settings.config", .aux 42)]

/-- The eight corners of the unit cube. -/
def cubeVerts : List MultiPlateParser.V3 :=
  [⟨0, 0, 0⟩, ⟨1, 0, 0⟩, ⟨0, 1, 0⟩, ⟨1, 1, 0⟩,
   ⟨0, 0, 1⟩, ⟨1, 0, 1⟩, ⟨0, 1, 1⟩, ⟨1, 1, 1⟩]

/-- A build item placing object `"1"` at translation `(10, 20, 30)`. -/
def cubeItem : MultiPlateParser.BuildItem :=
  { objectid := some "1", printable := none
    transform := some [1, 0, 0, 0, 1, 0, 0, 0, 1, 10, 20, 30] }

/-- A source archive whose second entry is a `.model` part that does not
parse as XML (so `_scale_model_xml` raises midway through the write loop). -/
def scaleFailSrc : List Rewrite.SrcPart :=
  [{ name := "a.txt", readable := true, data := .raw [5] },
   { name := "3D/3dmodel.model", readable := true, data := .raw [7] }]

/-- A source archive whose second entry cannot be read (`zin.read` raises
midway through a write loop). -/
def readFailSrc : List Rewrite.SrcPart :=
  [{ name := "a.txt", readable := true, data := .raw [5] },
   { name := "b.txt", readable := false, data := .raw [7] }]

/-- A config carrying an array-valued tool setting that is not in
`list_defaults`, next to one that is. -/
def diameterCfg : ProfileEmbedder.Config :=
  [("filament_diameter", .arr ["1.75"]),
   ("filament_colour", .arr ["#AABBCC"])]

end Fixtures

/-! # Theorems -/

/-! ## Helper lemmas -/

theorem pyAbs_zero : pyAbs 0 = 0 := by
  simp [pyAbs]

theorem collectTransforms_map (g : Scale3mf.Elem → Scale3mf.Elem)
    (hg : ∀ e, (g e).name = e.name) (tag : String) (doc : Scale3mf.Doc) :
    Scale3mf.collectTransforms tag (doc.map g) =
      (doc.filter (fun e => e.name = tag)).map (fun e => (g e).transform) := by
  induction doc with
  | nil => rfl
  | cons e rest ih =>
    simp only [Scale3mf.collectTransforms] at ih ⊢
    by_cases h : e.name = tag
    · have hg' : (g e).name = tag := by rw [hg e, h]
      simp only [List.map_cons, List.filter_cons, h, hg', decide_True,
        if_true, List.map_cons]
      exact congrArg _ ih
    · have hg' : ¬(g e).name = tag := by rw [hg e]; exact h
      simp only [List.map_cons, List.filter_cons, h, hg', decide_False,
        if_false]
      exact ih

theorem scaleModelElem_name (f : ℚ) (e : Scale3mf.Elem) :
    (Scale3mf.scaleModelElem f e).name = e.name := by
  unfold Scale3mf.scaleModelElem
  split
  · split <;> rfl
  · split
    · split <;> rfl
    · rfl

theorem scaleModelElem_item (f : ℚ) (e : Scale3mf.Elem) (h : e.name = "item") :
    (Scale3mf.scaleModelElem f e).transform =
      some (match e.transform with
            | some t => Scale3mf.scale_transform t f false
            | none => Scale3mf.defaultScaleMatrix f) := by
  obtain ⟨nm, t, k, v⟩ := e
  unfold Scale3mf.scaleModelElem
  rw [if_pos h]
  cases t <;> rfl

theorem scaleModelElem_component (f : ℚ) (e : Scale3mf.Elem)
    (h : e.name = "component") :
    (Scale3mf.scaleModelElem f e).transform =
      Option.map (fun t => Scale3mf.scale_component_translation_only t f)
        e.transform := by
  obtain ⟨nm, t, k, v⟩ := e
  unfold Scale3mf.scaleModelElem
  rw [if_neg (by rw [h]; decide), if_pos h]
  cases t <;> rfl

theorem enumMap_length {α β : Type} (f : ℕ → α → β) :
    ∀ (k : ℕ) (l : List α), (MultiPlateParser.enumMap f k l).length = l.length := by
  intro k l
  induction l generalizing k with
  | nil => rfl
  | cons x xs ih => simp [MultiPlateParser.enumMap, ih]

theorem enumMap_get? {α β : Type} (f : ℕ → α → β) :
    ∀ (k i : ℕ) (l : List α),
      (MultiPlateParser.enumMap f k l).get? i = (l.get? i).map (f (k + i)) := by
  intro k i l
  induction l generalizing k i with
  | nil => simp [MultiPlateParser.enumMap]
  | cons x xs ih =>
    cases i with
    | zero => simp [MultiPlateParser.enumMap]
    | succ j =>
      simp only [MultiPlateParser.enumMap, List.get?]
      rw [ih (k + 1) j, show k + 1 + j = k + (j + 1) by omega]

theorem enumMap_mem {α β : Type} (f : ℕ → α → β) :
    ∀ (k : ℕ) (l : List α) (p : β), p ∈ MultiPlateParser.enumMap f k l →
      ∃ j x, x ∈ l ∧ p = f j x := by
  intro k l
  induction l generalizing k with
  | nil => intro p hp; simp [MultiPlateParser.enumMap] at hp
  | cons x xs ih =>
    intro p hp
    simp only [MultiPlateParser.enumMap, List.mem_cons] at hp
    rcases hp with h | h
    · exact ⟨k, x, List.mem_cons_self x xs, h⟩
    · obtain ⟨j, y, hy, he⟩ := ih (k + 1) p h
      exact ⟨j, y, List.mem_cons_of_mem x hy, he⟩

theorem lookupPart_map_replace (pkg : MultiPlateParser.Package)
    (d : MultiPlateParser.PartData) (name : String)
    (h : name ≠ MultiPlateParser.modelPath) :
    MultiPlateParser.lookupPart
        (pkg.map fun p =>
          if p.1 = MultiPlateParser.modelPath then (p.1, d) else p) name =
      MultiPlateParser.lookupPart pkg name := by
  induction pkg with
  | nil => rfl
  | cons p rest ih =>
    unfold MultiPlateParser.lookupPart at ih ⊢
    by_cases hp : p.1 = MultiPlateParser.modelPath
    · have hpn : ¬ p.1 = name := by rw [hp]; exact fun hc => h hc.symm
      simp only [List.map_cons, if_pos hp]
      rw [List.find?_cons_of_neg _ (by simpa using hpn),
        List.find?_cons_of_neg _ (by simpa using hpn)]
      exact ih
    · simp only [List.map_cons, if_neg hp]
      by_cases hn : p.1 = name
      · rw [List.find?_cons_of_pos _ (by simpa using hn),
          List.find?_cons_of_pos _ (by simpa using hn)]
      · rw [List.find?_cons_of_neg _ (by simpa using hn),
          List.find?_cons_of_neg _ (by simpa using hn)]
        exact ih

/-! ## C2 -/

/-- C2 counterexample: for a package whose geometry part has a `build`
section with no items, `parse_multi_plate_3mf` returns the ordinary result
`([], false)` — it does not fail with any error. -/
theorem C2_cex_empty_build_returns_ordinary_result :
    MultiPlateParser.parse_multi_plate_3mf Fixtures.emptyBuildPkg =
      .ok ([], false) := by
  rfl

/-- C2 (amended): plate detection does not fail on an empty build list;
a package whose Build list is empty (or whose build section is missing)
is treated like a single-plate file: the parser returns the ordinary result
`([], false)` and no error is raised. -/
theorem C2_empty_build_treated_as_single_plate
    (pkg : MultiPlateParser.Package) (m : MultiPlateParser.ModelXml)
    (h1 : MultiPlateParser.lookupPart pkg MultiPlateParser.modelPath =
      some (.model m))
    (h2 : m.build = none ∨ m.build = some []) :
    MultiPlateParser.parse_multi_plate_3mf pkg = .ok ([], false) := by
  rcases h2 with h | h <;>
    simp [MultiPlateParser.parse_multi_plate_3mf, h1, h]

/-- C2 witness: the amended theorem applied to a concrete package with a
missing build section. -/
theorem C2_witness :
    MultiPlateParser.lookupPart Fixtures.noBuildPkg MultiPlateParser.modelPath =
      some (.model { build := none }) ∧
    MultiPlateParser.parse_multi_plate_3mf Fixtures.noBuildPkg =
      .ok ([], false) :=
  ⟨by rfl,
   C2_empty_build_treated_as_single_plate Fixtures.noBuildPkg
     { build := none } (by rfl) (Or.inl rfl)⟩

/-! ## C9 -/

/-- C9: a 12-element build-item transform is normalized by appending the
identity bottom row `[0,0,0,1]`; every normalized transform has exactly 16
elements; and every plate produced by `parse_multi_plate_3mf` carries a
16-element transform. -/
theorem C9_plate_transforms_are_16_elements :
    (∀ t : List ℚ, t.length = 12 →
      MultiPlateParser.normalizeTransform t = t ++ [0, 0, 0, 1]) ∧
    (∀ t : List ℚ, (MultiPlateParser.normalizeTransform t).length = 16) ∧
    (∀ (pkg : MultiPlateParser.Package) plates b,
      MultiPlateParser.parse_multi_plate_3mf pkg = .ok (plates, b) →
      ∀ p ∈ plates, p.transform.length = 16) := by
  have h16 : ∀ t : List ℚ, (MultiPlateParser.normalizeTransform t).length = 16 := by
    intro t
    unfold MultiPlateParser.normalizeTransform
    split
    · next h => simp [h]
    · split
      · rfl
      · next h => omega
  refine ⟨?_, h16, ?_⟩
  · intro t h
    unfold MultiPlateParser.normalizeTransform
    rw [if_pos h]
  · intro pkg plates b h p hp
    rcases hl : MultiPlateParser.lookupPart pkg MultiPlateParser.modelPath with
      _ | pd
    · simp [MultiPlateParser.parse_multi_plate_3mf, hl] at h
    · rcases pd with m | payload
      case aux => simp [MultiPlateParser.parse_multi_plate_3mf, hl] at h
      case model =>
        rcases hb : m.build with _ | items
        · simp [MultiPlateParser.parse_multi_plate_3mf, hl, hb] at h
          rw [h.1] at hp
          exact absurd hp (List.not_mem_nil p)
        · by_cases hlen : items.length ≤ 1
          · simp [MultiPlateParser.parse_multi_plate_3mf, hl, hb, hlen] at h
            rw [h.1] at hp
            exact absurd hp (List.not_mem_nil p)
          · simp [MultiPlateParser.parse_multi_plate_3mf, hl, hb, hlen] at h
            rw [← h.1] at hp
            obtain ⟨j, it, _, he⟩ :=
              enumMap_mem MultiPlateParser.mkPlate 0 items p hp
            rw [he]
            exact h16 _

/-- C9 witness: the normalization applied to a concrete 12-element
transform. -/
theorem C9_witness :
    ([(1 : ℚ), 0, 0, 0, 1, 0, 0, 0, 1, 10, 20, 30].length = 12) ∧
    MultiPlateParser.normalizeTransform
        [(1 : ℚ), 0, 0, 0, 1, 0, 0, 0, 1, 10, 20, 30] =
      [(1 : ℚ), 0, 0, 0, 1, 0, 0, 0, 1, 10, 20, 30] ++ [0, 0, 0, 1] :=
  ⟨by decide, C9_plate_transforms_are_16_elements.1 _ (by decide)⟩

/-! ## C3 -/

open GcodeExtractor

theorem keptCounters_succ (n : ℕ) :
    keptCounters (n + 1) =
      keptCounters n ++
        (if n + 1 = 1 ∨ (n + 1) % 100 = 0 then [n + 1] else []) := by
  unfold keptCounters
  rw [List.range_succ, List.filterMap_append]
  congr 1
  by_cases h : n + 1 = 1 ∨ (n + 1) % 100 = 0
  · simp only [List.filterMap_cons, List.filterMap_nil, if_pos h]
  · simp only [List.filterMap_cons, List.filterMap_nil, if_neg h]

theorem one_mem_keptCounters (n : ℕ) (h : 1 ≤ n) : 1 ∈ keptCounters n := by
  unfold keptCounters
  exact List.mem_filterMap.mpr ⟨0, List.mem_range.mpr (by omega), by simp⟩

theorem keptMoves_ne_nil (n : ℕ) (h : 1 ≤ n) : keptMoves n ≠ [] := by
  unfold keptMoves
  intro hc
  rw [List.map_eq_nil_iff] at hc
  exact absurd (hc ▸ one_mem_keptCounters n h) (List.not_mem_nil 1)

theorem keptMoves_head (n : ℕ) (h : 1 ≤ n) :
    (keptMoves n).head? = some (simpleMove 1) := by
  obtain ⟨m, rfl⟩ := Nat.exists_eq_add_of_le h
  unfold keptMoves keptCounters
  rw [show 1 + m = m + 1 by omega, List.range_succ_eq_map]
  rw [List.filterMap_cons]
  simp only [List.head?_map]
  norm_num

theorem keptCounters_length (n : ℕ) (h : 1 ≤ n) :
    (keptCounters n).length = n / 100 + 1 := by
  induction n with
  | zero => omega
  | succ m ih =>
    rcases Nat.eq_or_lt_of_le h with h1 | h1
    · rw [← h1]
      decide
    · have hm : 1 ≤ m := by omega
      rw [keptCounters_succ, List.length_append, ih hm]
      by_cases hmod : (m + 1) % 100 = 0
      · rw [if_pos (Or.inr hmod)]
        have : 100 ∣ (m + 1) := Nat.dvd_of_mod_eq_zero hmod
        rw [Nat.succ_div, if_pos this]
        simp
      · have : ¬ (m + 1 = 1 ∨ (m + 1) % 100 = 0) := by omega
        rw [if_neg this]
        have hnd : ¬ 100 ∣ (m + 1) := by omega
        rw [Nat.succ_div, if_neg hnd]
        simp

theorem lookupLayer_zero (r : LayerRec) :
    lookupLayer [(0, r)] 0 = some r := rfl

theorem updateLayer_zero (r : LayerRec) (f : LayerRec → LayerRec) :
    updateLayer [(0, r)] 0 f = [(0, f r)] := rfl

theorem keptMoves_succ (n : ℕ) :
    keptMoves (n + 1) =
      keptMoves n ++
        (if n + 1 = 1 ∨ (n + 1) % 100 = 0 then [simpleMove (n + 1)]
         else []) := by
  unfold keptMoves
  rw [keptCounters_succ, List.map_append]
  congr 1
  split <;> rfl

theorem simple_step (n : ℕ) :
    process_command (simpleState n) (.move { X := some ((n + 1 : ℕ) : ℚ) }) =
      simpleState (n + 1) := by
  rcases n with _ | m
  · with_unfolding_all decide
  · have hxy : ¬ (U1.pyAbs (((m + 1 + 1 : ℕ) : ℚ) - ((m + 1 : ℕ) : ℚ)) < 1 / 1000 ∧
        U1.pyAbs ((0 : ℚ) - 0) < 1 / 1000) := by
      intro hc
      have h1 := hc.1
      rw [show ((m + 1 + 1 : ℕ) : ℚ) - ((m + 1 : ℕ) : ℚ) = 1 by
        push_cast; ring] at h1
      rw [U1.pyAbs] at h1
      norm_num at h1
    have hne : (keptMoves (m + 1)).isEmpty = false := by
      rcases hk : keptMoves (m + 1) with _ | ⟨a, l⟩
      · exact absurd hk (keptMoves_ne_nil (m + 1) (by omega))
      · rfl
    simp only [process_command, handle_move, move_update, record_move,
      simpleState, if_true, if_neg (Nat.succ_ne_zero m), if_neg hxy,
      lookupLayer_zero, Option.isSome_some, if_pos rfl, Option.getD_some,
      updateLayer_zero, hne, Bool.or_false]
    have hc1 : ((m + 1 + 1 : ℕ) : ℚ) - 1 = ((m + 1 : ℕ) : ℚ) := by
      push_cast; ring
    have hmv : simpleMove (m + 1 + 1) =
        { isExtrude := decide ((0 : ℚ) < 0), x1 := pyRound (↑(m + 1)) 2,
          y1 := pyRound 0 2, x2 := pyRound (↑(m + 1 + 1)) 2,
          y2 := pyRound 0 2 } := by
      unfold simpleMove
      rw [hc1]
      norm_num
    rw [if_neg (Nat.succ_ne_zero (m + 1)), keptMoves_succ (m + 1), hmv]
    by_cases hmod : (m + 1 + 1) % 100 = 0
    · have hb : ((m + 1 + 1) % 100 == 0) = true := by simpa using hmod
      rw [hb, if_pos rfl, if_pos (Or.inr hmod)]
    · have hb : ((m + 1 + 1) % 100 == 0) = false := by simpa using hmod
      have hor : ¬ (m + 1 + 1 = 1 ∨ (m + 1 + 1) % 100 = 0) := by omega
      rw [hb, if_neg (by simp), if_neg hor, List.append_nil]

theorem simpleRun_eq (n : ℕ) : run (simpleCmds n) = simpleState n := by
  induction n with
  | zero => with_unfolding_all decide
  | succ k ih =>
    have hsplit : simpleCmds (k + 1) =
        simpleCmds k ++ [Cmd.move { X := some ((k + 1 : ℕ) : ℚ) }] := by
      unfold simpleCmds
      rw [List.range_succ, List.map_append]
      rfl
    rw [hsplit]
    unfold run at ih ⊢
    rw [List.foldl_append, ih, List.foldl_cons, List.foldl_nil]
    exact simple_step k

theorem lookupLayer_updateLayer (ls : List (ℕ × LayerRec)) (n : ℕ)
    (f : LayerRec → LayerRec) (L : ℕ) :
    lookupLayer (updateLayer ls n f) L =
      if L = n then (lookupLayer ls L).map f else lookupLayer ls L := by
  induction ls with
  | nil => split <;> rfl
  | cons p rest ih =>
    unfold updateLayer at ih ⊢
    unfold lookupLayer at ih ⊢
    by_cases hk : p.1 = L
    · by_cases hn : p.1 = n
      · simp only [List.map_cons, if_pos hn]
        rw [List.find?_cons_of_pos _ (by simpa using hk),
          List.find?_cons_of_pos _ (by simpa using hk)]
        rw [if_pos (by omega : L = n)]
        rfl
      · simp only [List.map_cons, if_neg hn]
        rw [List.find?_cons_of_pos _ (by simpa using hk),
          List.find?_cons_of_pos _ (by simpa using hk)]
        rw [if_neg (by omega : ¬ L = n)]
    · by_cases hn : p.1 = n
      · simp only [List.map_cons, if_pos hn]
        rw [List.find?_cons_of_neg _ (by simpa using hk),
          List.find?_cons_of_neg _ (by simpa using hk)]
        exact ih
      · simp only [List.map_cons, if_neg hn]
        rw [List.find?_cons_of_neg _ (by simpa using hk),
          List.find?_cons_of_neg _ (by simpa using hk)]
        exact ih

theorem lookupLayer_append_single (ls : List (ℕ × LayerRec)) (n : ℕ)
    (r0 : LayerRec) (L : ℕ) :
    lookupLayer (ls ++ [(n, r0)]) L =
      match lookupLayer ls L with
      | some r => some r
      | none => if L = n then some r0 else none := by
  unfold lookupLayer
  rw [List.find?_append]
  rcases hf : ls.find? (fun p => p.1 = L) with _ | p
  · rw [hf]
    by_cases hn : L = n
    · rw [if_pos hn]
      simp only [Option.map_none', Option.none_orElse]
      rw [List.find?_cons_of_pos _ (by simpa using hn.symm)]
      rfl
    · rw [if_neg hn]
      simp only [Option.map_none', Option.none_orElse]
      rw [List.find?_cons_of_neg _ (by simpa using fun hc => hn hc.symm)]
      rfl
  · rw [hf]
    simp

theorem record_move_inv (st' : ExtState) (counter' : ℕ) (mv : MoveRec)
    (h : ∀ L r, lookupLayer st'.layers L = some r →
      (r.moves.head? = r.firstQual ∧ (r.firstQual = none ↔ r.qual = 0))) :
    ∀ L r, lookupLayer (record_move st' counter' mv).layers L = some r →
      (r.moves.head? = r.firstQual ∧ (r.firstQual = none ↔ r.qual = 0)) := by
  intro L r hLr
  simp only [record_move] at hLr
  by_cases hfound : (lookupLayer st'.layers st'.currentLayerNum).isSome = true
  · rw [if_pos hfound] at hLr
    obtain ⟨p0, hp0⟩ := Option.isSome_iff_exists.mp hfound
    rw [hp0] at hLr
    simp only [Option.getD_some] at hLr
    obtain ⟨hhead, hiff⟩ := h st'.currentLayerNum p0 hp0
    by_cases hL : L = st'.currentLayerNum
    · subst hL
      split at hLr
      · rw [lookupLayer_updateLayer, if_pos rfl, lookupLayer_updateLayer,
          if_pos rfl, hp0] at hLr
        simp only [Option.map_some', Option.some.injEq] at hLr
        subst hLr
        rcases hm : p0.moves with _ | ⟨a, l⟩
        · rw [hm] at hhead
          simp only [List.head?_nil] at hhead
          simp [hm, ← hhead]
        · rw [hm] at hhead
          simp only [List.head?_cons] at hhead
          simp [hm, ← hhead]
      · next hkeep =>
        rw [lookupLayer_updateLayer, if_pos rfl, hp0] at hLr
        simp only [Option.map_some', Option.some.injEq] at hLr
        subst hLr
        have hor : (counter' % st'.decimationFactor == 0 ||
            p0.moves.isEmpty) = false := by
          revert hkeep
          cases counter' % st'.decimationFactor == 0 || p0.moves.isEmpty <;>
            simp
        have hne : p0.moves.isEmpty = false :=
          (Bool.or_eq_false_iff.mp hor).2
        rcases hm : p0.moves with _ | ⟨a, l⟩
        · rw [hm] at hne
          simp at hne
        · rw [hm] at hhead
          simp only [List.head?_cons] at hhead
          simp [hm, ← hhead]
    · split at hLr
      · rw [lookupLayer_updateLayer, if_neg hL, lookupLayer_updateLayer,
          if_neg hL] at hLr
        exact h L r hLr
      · rw [lookupLayer_updateLayer, if_neg hL] at hLr
        exact h L r hLr
  · rw [if_neg hfound] at hLr
    have hnone : lookupLayer st'.layers st'.currentLayerNum = none := by
      rcases ho : lookupLayer st'.layers st'.currentLayerNum with _ | v
      · rfl
      · rw [ho] at hfound
        exact absurd rfl hfound
    rw [lookupLayer_append_single, hnone] at hLr
    simp only [eq_self_iff_true, if_true, Option.getD_some] at hLr
    rw [show (freshLayer (pyRound st'.currentZ 3)).moves.isEmpty = true
        from rfl, Bool.or_true, if_pos rfl] at hLr
    by_cases hL : L = st'.currentLayerNum
    · subst hL
      rw [lookupLayer_updateLayer, if_pos rfl, lookupLayer_updateLayer,
        if_pos rfl, lookupLayer_append_single, hnone, if_pos rfl] at hLr
      simp only [Option.map_some', Option.some.injEq] at hLr
      subst hLr
      simp [freshLayer]
    · rw [lookupLayer_updateLayer, if_neg hL, lookupLayer_updateLayer,
        if_neg hL, lookupLayer_append_single] at hLr
      rcases hfl : lookupLayer st'.layers L with _ | r1
      · rw [hfl] at hLr
        rw [if_neg hL] at hLr
        exact absurd hLr (by simp)
      · rw [hfl] at hLr
        simp only [Option.some.injEq] at hLr
        subst hLr
        exact h L r1 hfl

theorem run_layer_inv (cmds : List Cmd) :
    ∀ L r, lookupLayer ((run cmds).layers) L = some r →
      (r.moves.head? = r.firstQual ∧ (r.firstQual = none ↔ r.qual = 0)) := by
  unfold run
  have base : ∀ L r, lookupLayer reset_state.layers L = some r →
      (r.moves.head? = r.firstQual ∧ (r.firstQual = none ↔ r.qual = 0)) := by
    intro L r hLr
    exact absurd hLr (by simp [reset_state, lookupLayer])
  revert base
  generalize reset_state = st0
  induction cmds generalizing st0 with
  | nil => intro base; exact base
  | cons c rest ih =>
    intro base
    rw [List.foldl_cons]
    refine ih (process_command st0 c) ?_
    cases c with
    | g90 => exact base
    | g91 => exact base
    | m82 => exact base
    | m83 => exact base
    | g92 cc => exact base
    | other => exact base
    | move cc =>
      intro L r hLr
      simp only [process_command, handle_move] at hLr
      split at hLr
      · exact base L r hLr
      · exact record_move_inv (move_update st0 cc) _ _ base L r hLr



/-- C3 counterexample: the decimation counter is global across layers, so a
layer can retain more than `floor(n/100)+1` of its own `n` qualifying
moves: after 98 qualifying moves in layer 0 and a layer change, layer 1
receives two qualifying moves (at global counters 99 and 100) and retains
both of them, exceeding the claimed per-layer bound `floor(2/100)+1 = 1`. -/
theorem C3_cex_layer_exceeds_per_layer_decimation_bound :
    (lookupLayer ((run cexCmds).layers) 1).map
        (fun r => (r.qual, r.moves.length)) = some (2, 2) ∧
    ¬ (2 ≤ 2 / 100 + 1) := by
  have hrun : run cexCmds =
      process_command (process_command (process_command (simpleState 98)
        (Cmd.move { Z := some 1 })) (Cmd.move { X := some 99 }))
        (Cmd.move { X := some 100 }) := by
    unfold cexCmds run
    rw [List.foldl_append]
    rw [show (simpleCmds 98).foldl process_command reset_state =
      simpleState 98 from simpleRun_eq 98]
    rfl
  rw [hrun]
  refine ⟨?_, by norm_num⟩
  with_unfolding_all decide

/-- C3 (amended): with `decimation_factor = 100` the move counter is global
across the whole file, and a qualifying move is retained iff the counter
hits a multiple of 100 or its layer has no retained move yet.
Consequently: (a) every layer's first retained move is its first qualifying
move, and a layer has a first qualifying move exactly when its qualifying
count is nonzero; (b) for a file whose `n ≥ 1` qualifying moves all land in
a single layer, that layer retains exactly `n / 100 + 1` moves; and (c)
with exactly 250 qualifying moves the retained global counter positions are
exactly 1, 100 and 200.  (Across multiple layers the per-layer bound
`floor(n/100)+1` can be exceeded, as the counterexample shows.) -/
theorem C3_decimation_amended :
    (∀ (cmds : List Cmd) (L : ℕ) (r : LayerRec),
      lookupLayer ((run cmds).layers) L = some r →
      (r.moves.head? = r.firstQual ∧ (r.firstQual = none ↔ r.qual = 0))) ∧
    (∀ n : ℕ, 1 ≤ n →
      (run (simpleCmds n)).layers =
        [(0, { z_height := pyRound 0 3, moves := keptMoves n, qual := n
               firstQual := some (simpleMove 1) })] ∧
      (keptMoves n).length = n / 100 + 1) ∧
    keptCounters 250 = [1, 100, 200] := by
  refine ⟨run_layer_inv, ?_, by decide⟩
  intro n hn
  constructor
  · rw [simpleRun_eq]
    unfold simpleState
    rw [if_neg (by omega)]
  · unfold keptMoves
    rw [List.length_map]
    exact keptCounters_length n hn

/-- C3 witness: the single-layer conjunct applied to a concrete five-move
file. -/
theorem C3_witness :
    (1 ≤ 5) ∧
    ((run (simpleCmds 5)).layers =
      [(0, { z_height := pyRound 0 3, moves := keptMoves 5, qual := 5
             firstQual := some (simpleMove 1) })] ∧
     (keptMoves 5).length = 5 / 100 + 1) :=
  ⟨by norm_num, C3_decimation_amended.2.1 5 (by norm_num)⟩


/-! ## C10 -/

/-- C10: extracting one plate from a multi-plate package removes no build
item: item `i` (0-based) of the output is the source item with only its
`printable` attribute overwritten - `"1"` exactly at the target 1-based
position, `"0"` elsewhere - and every archive part other than the geometry
part is copied byte-identical from the source. -/
theorem C10_extract_plate_keeps_items_and_other_parts
    (pkg : MultiPlateParser.Package) (m : MultiPlateParser.ModelXml)
    (items : List MultiPlateParser.BuildItem) (target : ℕ)
    (h1 : MultiPlateParser.lookupPart pkg MultiPlateParser.modelPath =
      some (.model m))
    (h2 : m.build = some items)
    (h3 : 2 ≤ items.length)
    (h4 : 1 ≤ target) (h5 : target ≤ items.length) :
    MultiPlateParser.extract_plate_to_3mf pkg target =
      .ok (pkg.map fun p =>
        if p.1 = MultiPlateParser.modelPath then
          (p.1, MultiPlateParser.PartData.model
            { m with build := some (MultiPlateParser.enumMap
                (fun idx it =>
                  MultiPlateParser.setPrintable it
                    (if idx + 1 = target then "1" else "0")) 0 items) })
        else p) ∧
    (∀ i, (MultiPlateParser.enumMap
        (fun idx it => MultiPlateParser.setPrintable it
          (if idx + 1 = target then "1" else "0")) 0 items).get? i =
      (items.get? i).map fun it =>
        MultiPlateParser.setPrintable it (if i + 1 = target then "1" else "0")) ∧
    (∀ name, name ≠ MultiPlateParser.modelPath →
      MultiPlateParser.lookupPart (pkg.map fun p =>
        if p.1 = MultiPlateParser.modelPath then
          (p.1, MultiPlateParser.PartData.model
            { m with build := some (MultiPlateParser.enumMap
                (fun idx it =>
                  MultiPlateParser.setPrintable it
                    (if idx + 1 = target then "1" else "0")) 0 items) })
        else p) name = MultiPlateParser.lookupPart pkg name) := by
  have hlen' : ¬ items.length ≤ 1 := by omega
  have hlt : 1 < (MultiPlateParser.enumMap MultiPlateParser.mkPlate 0 items).length := by
    rw [enumMap_length]; omega
  have hparse : MultiPlateParser.parse_multi_plate_3mf pkg =
      .ok (MultiPlateParser.enumMap MultiPlateParser.mkPlate 0 items, true) := by
    simp [MultiPlateParser.parse_multi_plate_3mf, h1, h2, hlen', hlt]
  have hti : target - 1 < items.length := by omega
  have hit : items.get? (target - 1) = some (items.get ⟨target - 1, hti⟩) :=
    List.get?_eq_get hti
  have hget : (MultiPlateParser.enumMap MultiPlateParser.mkPlate 0 items).get?
      (target - 1) =
      some (MultiPlateParser.mkPlate (0 + (target - 1))
        (items.get ⟨target - 1, hti⟩)) := by
    rw [enumMap_get?, hit]
    rfl
  have hany : (MultiPlateParser.enumMap MultiPlateParser.mkPlate 0 items).any
      (fun p => p.plate_id = target) = true := by
    rw [List.any_eq_true]
    refine ⟨MultiPlateParser.mkPlate (0 + (target - 1))
      (items.get ⟨target - 1, hti⟩), List.get?_mem hget, ?_⟩
    simp only [MultiPlateParser.mkPlate, decide_eq_true_eq]
    omega
  have hnotlt : ¬ (target < 1 ∨ items.length < target) := by omega
  refine ⟨?_, ?_, ?_⟩
  · simp [MultiPlateParser.extract_plate_to_3mf, hparse, hany, h1, h2, hnotlt]
    omega
  · intro i
    rw [enumMap_get?]
    simp
  · intro name hn
    exact lookupPart_map_replace pkg _ name hn

/-- C10 witness: the extraction theorem applied to a concrete two-plate
package with target plate 1. -/
theorem C10_witness :
    MultiPlateParser.extract_plate_to_3mf Fixtures.twoPlatePkg 1 =
      .ok (Fixtures.twoPlatePkg.map fun p =>
        if p.1 = MultiPlateParser.modelPath then
          (p.1, MultiPlateParser.PartData.model
            { build := some (MultiPlateParser.enumMap
                (fun idx it =>
                  MultiPlateParser.setPrintable it
                    (if idx + 1 = 1 then "1" else "0")) 0 Fixtures.twoItems) })
        else p) :=
  (C10_extract_plate_keeps_items_and_other_parts Fixtures.twoPlatePkg
    { build := some Fixtures.twoItems } Fixtures.twoItems 1
    (by rfl) rfl (by decide) (by decide) (by decide)).1

/-! ## C6 -/

theorem ceilSqrt_eq_ceil_real_sqrt (n : ℕ) :
    CopyDuplicator.ceilSqrt n = ⌈Real.sqrt n⌉₊ := by
  unfold CopyDuplicator.ceilSqrt
  by_cases h : Nat.sqrt n * Nat.sqrt n = n
  · rw [if_pos h]
    have hs : Real.sqrt n = (Nat.sqrt n : ℝ) := by
      have hcast : ((Nat.sqrt n : ℝ)) * (Nat.sqrt n : ℝ) = (n : ℝ) := by
        exact_mod_cast congrArg (fun m : ℕ => (m : ℝ)) h
      have : ((n : ℕ) : ℝ) = ((Nat.sqrt n : ℝ)) ^ 2 := by
        rw [sq]; linarith
      rw [this, Real.sqrt_sq (by positivity)]
    rw [hs, Nat.ceil_natCast]
  · rw [if_neg h]
    have hlt : (Nat.sqrt n * Nat.sqrt n : ℕ) < n :=
      lt_of_le_of_ne (Nat.sqrt_le n) h
    have h1 : (Nat.sqrt n : ℝ) < Real.sqrt n := by
      rw [Real.lt_sqrt (by positivity)]
      have : ((Nat.sqrt n * Nat.sqrt n : ℕ) : ℝ) < n := by exact_mod_cast hlt
      push_cast at this
      nlinarith [this]
    have h2 : Real.sqrt n ≤ ((Nat.sqrt n : ℝ) + 1) := by
      rw [Real.sqrt_le_left (by positivity)]
      have hr := Nat.lt_succ_sqrt n
      have hr2 : ((n : ℕ) : ℝ) <
          ((Nat.succ (Nat.sqrt n) * Nat.succ (Nat.sqrt n) : ℕ) : ℝ) := by
        exact_mod_cast hr
      push_cast at hr2
      nlinarith [hr2]
    symm
    rw [Nat.ceil_eq_iff (by omega)]
    refine ⟨?_, ?_⟩
    · simpa using h1
    · push_cast
      exact h2

/-- C6 counterexample: with a degenerate cell (item size and spacing both
zero) and two copies, the grid layout succeeds but returns two coinciding
positions, so "no two returned positions coincide" fails as stated. -/
theorem C6_cex_degenerate_cell_positions_coincide :
    CopyDuplicator.calculate_grid_layout 0 0 2 0 =
      .ok [((135 : ℚ), (135 : ℚ)), (135, 135)] ∧
    ¬ [((135 : ℚ), (135 : ℚ)), (135, 135)].Pairwise (· ≠ ·) := by
  constructor
  · with_unfolding_all rfl
  · intro h
    simp at h

/-- C6 (amended): grid layout behaves as claimed — `count = 1` yields
exactly the bed center, the number of positions equals the count, position
`i` sits at column `i % cols` and row `i / cols` with
`cols = ceil (sqrt count)`, and `count < 1` fails with the invalid-count
error — and distinct copies get distinct positions provided the grid cell
is nondegenerate (item width plus spacing and item depth plus spacing both
nonzero); with a zero-size cell positions can coincide. -/
theorem C6_grid_layout_amended :
    (∀ w d s : ℚ, CopyDuplicator.calculate_grid_layout w d 1 s =
      .ok [(CopyDuplicator.BED_SIZE_X / 2, CopyDuplicator.BED_SIZE_Y / 2)]) ∧
    (∀ (w d s : ℚ) (c : ℤ) ps,
      CopyDuplicator.calculate_grid_layout w d c s = .ok ps →
      (ps.length : ℤ) = c) ∧
    (∀ (w d s : ℚ) (c : ℤ) ps, w + s ≠ 0 → d + s ≠ 0 →
      CopyDuplicator.calculate_grid_layout w d c s = .ok ps →
      ps.Pairwise (· ≠ ·)) ∧
    (∀ (w d s : ℚ) (n i : ℕ), i < n →
      (CopyDuplicator.gridPositions w d s n).get? i =
        some
          ((CopyDuplicator.BED_SIZE_X -
              ((CopyDuplicator.ceilSqrt n : ℚ) * (w + s) - s)) / 2 + w / 2 +
            ((i % CopyDuplicator.ceilSqrt n : ℕ) : ℚ) * (w + s),
           (CopyDuplicator.BED_SIZE_Y -
              ((((n + CopyDuplicator.ceilSqrt n - 1) /
                  CopyDuplicator.ceilSqrt n : ℕ) : ℚ) *
                (d + s) - s)) / 2 + d / 2 +
            ((i / CopyDuplicator.ceilSqrt n : ℕ) : ℚ) * (d + s))) ∧
    (∀ (w d s : ℚ) (c : ℤ), c < 1 →
      CopyDuplicator.calculate_grid_layout w d c s =
        .error "copies must be >= 1") ∧
    (∀ n : ℕ, CopyDuplicator.ceilSqrt n = ⌈Real.sqrt n⌉₊) := by
  have hpos : ∀ (w d s : ℚ) (n : ℕ), w + s ≠ 0 → d + s ≠ 0 →
      (CopyDuplicator.gridPositions w d s n).Pairwise (· ≠ ·) := by
    intro w d s n hw hd
    unfold CopyDuplicator.gridPositions
    rw [List.pairwise_map]
    have hbase := List.pairwise_lt_range n
    refine hbase.imp ?_
    intro a b hab heq
    rw [Prod.mk.injEq] at heq
    have hx : ((a % CopyDuplicator.ceilSqrt n : ℕ) : ℚ) * (w + s) =
        ((b % CopyDuplicator.ceilSqrt n : ℕ) : ℚ) * (w + s) := by
      have := heq.1
      linarith [this]
    have hy : ((a / CopyDuplicator.ceilSqrt n : ℕ) : ℚ) * (d + s) =
        ((b / CopyDuplicator.ceilSqrt n : ℕ) : ℚ) * (d + s) := by
      have := heq.2
      linarith [this]
    have hmod : a % CopyDuplicator.ceilSqrt n = b % CopyDuplicator.ceilSqrt n := by
      have := mul_right_cancel₀ hw hx
      exact_mod_cast this
    have hdiv : a / CopyDuplicator.ceilSqrt n = b / CopyDuplicator.ceilSqrt n := by
      have := mul_right_cancel₀ hd hy
      exact_mod_cast this
    have hab' : a = b := by
      conv_lhs => rw [← Nat.div_add_mod a (CopyDuplicator.ceilSqrt n)]
      conv_rhs => rw [← Nat.div_add_mod b (CopyDuplicator.ceilSqrt n)]
      rw [hmod, hdiv]
    omega
  refine ⟨?_, ?_, ?_, ?_, ?_, ceilSqrt_eq_ceil_real_sqrt⟩
  · intro w d s
    rfl
  · intro w d s c ps h
    unfold CopyDuplicator.calculate_grid_layout at h
    split_ifs at h with hc1 hc2
    · simp only [Except.ok.injEq] at h
      subst h
      simp [hc2]
    · simp only [Except.ok.injEq] at h
      subst h
      simp only [CopyDuplicator.gridPositions, List.length_map,
        List.length_range]
      omega
  · intro w d s c ps hw hd h
    unfold CopyDuplicator.calculate_grid_layout at h
    split_ifs at h with hc1 hc2
    · simp only [Except.ok.injEq] at h
      subst h
      simp
    · simp only [Except.ok.injEq] at h
      subst h
      exact hpos w d s c.toNat hw hd
  · intro w d s n i hi
    simp only [CopyDuplicator.gridPositions, List.get?_map,
      List.get?_range hi, Option.map_some']
  · intro w d s c hc
    unfold CopyDuplicator.calculate_grid_layout
    rw [if_pos hc]

/-- C6 witness: the amended theorem's distinctness conjunct applied to a
concrete 4-copy layout with a nondegenerate cell. -/
theorem C6_witness :
    ((10 : ℚ) + 5 ≠ 0) ∧ ((10 : ℚ) + 5 ≠ 0) ∧
    CopyDuplicator.calculate_grid_layout 10 10 4 5 =
      .ok [((255 / 2 : ℚ), (255 / 2 : ℚ)), (285 / 2, 255 / 2),
           (255 / 2, 285 / 2), (285 / 2, 285 / 2)] ∧
    [((255 / 2 : ℚ), (255 / 2 : ℚ)), (285 / 2, 255 / 2),
     (255 / 2, 285 / 2), (285 / 2, 285 / 2)].Pairwise (· ≠ ·) :=
  ⟨by norm_num, by norm_num, by with_unfolding_all rfl,
   C6_grid_layout_amended.2.2.1 10 10 5 4 _ (by norm_num) (by norm_num)
     (by with_unfolding_all rfl)⟩

/-! ## C7 -/

theorem find?_setKey_map (cfg : ProfileEmbedder.Config) (k : String)
    (v : ProfileEmbedder.JVal) :
    ((cfg.map fun p => if p.1 = k then (p.1, v) else p).find?
        (fun p => p.1 = k)) =
      (cfg.find? (fun p => p.1 = k)).map (fun _ => (k, v)) := by
  induction cfg with
  | nil => rfl
  | cons p rest ih =>
    by_cases hp : p.1 = k
    · simp only [List.map_cons, if_pos hp]
      rw [List.find?_cons_of_pos _ (by simpa using hp),
        List.find?_cons_of_pos _ (by simpa using hp)]
      simp [hp]
    · simp only [List.map_cons, if_neg hp]
      rw [List.find?_cons_of_neg _ (by simpa using hp),
        List.find?_cons_of_neg _ (by simpa using hp)]
      exact ih

theorem lookupKey_setKey_self (cfg : ProfileEmbedder.Config) (k : String)
    (v : ProfileEmbedder.JVal) :
    ProfileEmbedder.lookupKey (ProfileEmbedder.setKey cfg k v) k = some v := by
  unfold ProfileEmbedder.setKey ProfileEmbedder.lookupKey
  by_cases hex : (cfg.find? (fun p => p.1 = k)).isSome
  · rw [if_pos hex, find?_setKey_map]
    obtain ⟨p0, hp0⟩ := Option.isSome_iff_exists.mp hex
    rw [hp0]
    rfl
  · rw [if_neg hex, List.find?_append,
      Option.not_isSome_iff_eq_none.mp hex]
    simp

theorem lookupKey_setKey_ne (cfg : ProfileEmbedder.Config) (k k' : String)
    (v : ProfileEmbedder.JVal) (h : k' ≠ k) :
    ProfileEmbedder.lookupKey (ProfileEmbedder.setKey cfg k v) k' =
      ProfileEmbedder.lookupKey cfg k' := by
  unfold ProfileEmbedder.setKey ProfileEmbedder.lookupKey
  by_cases hex : (cfg.find? (fun p => p.1 = k)).isSome
  · rw [if_pos hex]
    clear hex
    induction cfg with
    | nil => rfl
    | cons p rest ih =>
      by_cases hp : p.1 = k
      · have hp' : ¬ p.1 = k' := by rw [hp]; exact fun hc => h hc.symm
        simp only [List.map_cons, if_pos hp]
        rw [List.find?_cons_of_neg _ (by simpa using hp'),
          List.find?_cons_of_neg _ (by simpa using hp')]
        exact ih
      · simp only [List.map_cons, if_neg hp]
        by_cases hn : p.1 = k'
        · rw [List.find?_cons_of_pos _ (by simpa using hn),
            List.find?_cons_of_pos _ (by simpa using hn)]
        · rw [List.find?_cons_of_neg _ (by simpa using hn),
            List.find?_cons_of_neg _ (by simpa using hn)]
          exact ih
  · rw [if_neg hex, List.find?_append]
    rcases hf : cfg.find? (fun p => p.1 = k') with _ | p0
    · rw [hf]
      simp only [Option.none_or]
      rw [List.find?_cons_of_neg _ (by simpa using fun hc => h hc.symm)]
      rfl
    · rw [hf]
      rfl

theorem padFold_cons (kf : String × List String)
    (rest : List (String × List String)) (cfg : ProfileEmbedder.Config)
    (slots : ℤ) :
    ProfileEmbedder.padFold (kf :: rest) cfg slots =
      ProfileEmbedder.padFold rest
        (ProfileEmbedder.setKey cfg kf.1
          (.arr (ProfileEmbedder.paddedToolSetting
            (ProfileEmbedder.lookupKey cfg kf.1) kf.2 slots))) slots := rfl

theorem padFold_lookup_notin :
    ∀ (defs : List (String × List String)) (cfg : ProfileEmbedder.Config)
      (slots : ℤ) (k : String), k ∉ defs.map Prod.fst →
      ProfileEmbedder.lookupKey (ProfileEmbedder.padFold defs cfg slots) k =
        ProfileEmbedder.lookupKey cfg k := by
  intro defs
  induction defs with
  | nil => intro cfg slots k _; rfl
  | cons kf rest ih =>
    intro cfg slots k hk
    simp only [List.map_cons, List.mem_cons, not_or] at hk
    unfold ProfileEmbedder.padFold at ih ⊢
    simp only [List.foldl_cons]
    rw [ih _ slots k hk.2, lookupKey_setKey_ne _ _ _ _ hk.1]

theorem padFold_lookup_mem :
    ∀ (defs : List (String × List String)) (cfg : ProfileEmbedder.Config)
      (slots : ℤ) (k : String) (fb : List String),
      (defs.map Prod.fst).Nodup → (k, fb) ∈ defs →
      ProfileEmbedder.lookupKey (ProfileEmbedder.padFold defs cfg slots) k =
        some (.arr (ProfileEmbedder.paddedToolSetting
          (ProfileEmbedder.lookupKey cfg k) fb slots)) := by
  intro defs
  induction defs with
  | nil => intro cfg slots k fb _ hmem; exact absurd hmem (List.not_mem_nil _)
  | cons kf rest ih =>
    intro cfg slots k fb hnd hmem
    simp only [List.map_cons, List.nodup_cons] at hnd
    rw [padFold_cons]
    rcases List.mem_cons.mp hmem with heq | hrest
    · obtain ⟨hk, hfb⟩ : k = kf.1 ∧ fb = kf.2 := by
        rw [Prod.ext_iff] at heq
        exact heq
      subst hk
      subst hfb
      rw [padFold_lookup_notin rest _ slots _ hnd.1,
        lookupKey_setKey_self]
    · have hk1 : k ∈ rest.map Prod.fst :=
        List.mem_map.mpr ⟨(k, fb), hrest, rfl⟩
      have hkne : k ≠ kf.1 := fun hc => hnd.1 (hc ▸ hk1)
      rw [ih _ slots k fb hnd.2 hrest, lookupKey_setKey_ne _ _ _ _ hkne]

/-- C7 counterexample: in the assignment-preserving padding pass, an
array-valued tool setting that is not one of the thirteen `list_defaults`
keys (here `filament_diameter`) is left at its original single-element
length even though three tool slots are requested, while a whitelisted key
(`filament_colour`) is padded to three entries. -/
theorem C7_cex_non_whitelisted_array_not_padded :
    ProfileEmbedder.lookupKey
        (ProfileEmbedder.padListDefaults Fixtures.diameterCfg 1 3)
        "filament_diameter" = some (.arr ["1.75"]) ∧
    ProfileEmbedder.target_slots 1 3 = 3 ∧
    ProfileEmbedder.lookupKey
        (ProfileEmbedder.padListDefaults Fixtures.diameterCfg 1 3)
        "filament_colour" =
      some (.arr ["#AABBCC", "#AABBCC", "#AABBCC"]) := by
  refine ⟨by decide, by decide, by decide⟩

/-- C7 (amended): in the assignment-preserving path, every array-valued
tool setting among the thirteen `list_defaults` keys is padded to
`max (detected_tool_count, requested_tool_count, 1)` entries by repeating
its last element (settings outside that fixed key list are not padded); in
particular requesting 3 tools against a single-element material color array
yields that value repeated three times. -/
theorem C7_tool_setting_padding_amended :
    (∀ assigned requested : ℤ,
      1 ≤ ProfileEmbedder.target_slots assigned requested ∧
      requested ≤ ProfileEmbedder.target_slots assigned requested ∧
      assigned ≤ ProfileEmbedder.target_slots assigned requested) ∧
    (∀ (cfg : ProfileEmbedder.Config) (assigned requested : ℤ) (k : String)
        (fb : List String), (k, fb) ∈ ProfileEmbedder.list_defaults →
      ProfileEmbedder.lookupKey
          (ProfileEmbedder.padListDefaults cfg assigned requested) k =
        some (.arr (ProfileEmbedder.paddedToolSetting
          (ProfileEmbedder.lookupKey cfg k) fb
          (ProfileEmbedder.target_slots assigned requested)))) ∧
    (∀ (v : Option ProfileEmbedder.JVal) (fb : List String) (L : ℤ),
      fb ≠ [] → 1 ≤ L →
      ProfileEmbedder.paddedToolSetting v fb L =
        (if (ProfileEmbedder.ensure_list v).isEmpty then fb
         else ProfileEmbedder.ensure_list v) ++
          List.replicate
            (L.toNat -
              (if (ProfileEmbedder.ensure_list v).isEmpty then fb
               else ProfileEmbedder.ensure_list v).length)
            ((if (ProfileEmbedder.ensure_list v).isEmpty then fb
              else ProfileEmbedder.ensure_list v).getLastD
              (fb.getLastD "")) ∧
      (ProfileEmbedder.paddedToolSetting v fb L).length =
        max (if (ProfileEmbedder.ensure_list v).isEmpty then fb
             else ProfileEmbedder.ensure_list v).length L.toNat) ∧
    ProfileEmbedder.paddedToolSetting (some (.arr ["#AABBCC"])) ["#FFFFFF"]
        (ProfileEmbedder.target_slots 1 3) =
      ["#AABBCC", "#AABBCC", "#AABBCC"] := by
  refine ⟨?_, ?_, ?_, by decide⟩
  · intro assigned requested
    unfold ProfileEmbedder.target_slots
    omega
  · intro cfg assigned requested k fb hmem
    exact padFold_lookup_mem ProfileEmbedder.list_defaults cfg _ k fb
      (by decide) hmem
  · intro v fb L hfb hL
    have hvs : ¬ (if (ProfileEmbedder.ensure_list v).isEmpty then fb
        else ProfileEmbedder.ensure_list v).isEmpty := by
      by_cases he : (ProfileEmbedder.ensure_list v).isEmpty
      · rw [if_pos he]
        simpa using hfb
      · rw [if_neg he]
        exact he
    unfold ProfileEmbedder.paddedToolSetting ProfileEmbedder.pad_list
    rw [if_neg (by omega : ¬ L ≤ 0), if_neg hvs]
    refine ⟨rfl, ?_⟩
    simp only [List.length_append, List.length_replicate]
    omega
  
/-- C7 witness: the padding conjunct applied to the concrete config, key
`filament_colour` and 3 requested tools. -/
theorem C7_witness :
    (("filament_colour", ["#FFFFFF"]) ∈ ProfileEmbedder.list_defaults) ∧
    ProfileEmbedder.lookupKey
        (ProfileEmbedder.padListDefaults Fixtures.diameterCfg 1 3)
        "filament_colour" =
      some (.arr (ProfileEmbedder.paddedToolSetting
        (ProfileEmbedder.lookupKey Fixtures.diameterCfg "filament_colour")
        ["#FFFFFF"] (ProfileEmbedder.target_slots 1 3))) :=
  ⟨by decide,
   C7_tool_setting_padding_amended.2.1 Fixtures.diameterCfg 1 3
     "filament_colour" ["#FFFFFF"] (by decide)⟩

/-! ## C8 -/

theorem scanStep_fold (vs : List MultiPlateParser.V3) :
    ∀ lo hi : MultiPlateParser.V3,
      vs.foldl MultiPlateParser.scanStep (some (lo, hi)) =
        some
          (⟨(vs.map MultiPlateParser.V3.x).foldl min lo.x,
            (vs.map MultiPlateParser.V3.y).foldl min lo.y,
            (vs.map MultiPlateParser.V3.z).foldl min lo.z⟩,
           ⟨(vs.map MultiPlateParser.V3.x).foldl max hi.x,
            (vs.map MultiPlateParser.V3.y).foldl max hi.y,
            (vs.map MultiPlateParser.V3.z).foldl max hi.z⟩) := by
  induction vs with
  | nil => intro lo hi; rfl
  | cons v rest ih =>
    intro lo hi
    rw [List.foldl_cons,
      show MultiPlateParser.scanStep (some (lo, hi)) v =
        some (⟨min lo.x v.x, min lo.y v.y, min lo.z v.z⟩,
              ⟨max hi.x v.x, max hi.y v.y, max hi.z v.z⟩) from rfl,
      ih]
    rfl

/-- C8: the vertex scan takes per-axis minima and maxima as independent
running extrema over the vertex list; the bounds calculation shifts the
local extrema of the item's object by the item transform's translation; and
for a unit cube placed with translation `(10, 20, 30)` the computed bounds
are min `(10, 20, 30)`, max `(11, 21, 31)`. -/
theorem C8_bounds_apply_translation_to_extrema :
    (∀ (v : MultiPlateParser.V3) (vs : List MultiPlateParser.V3)
        (lo hi : MultiPlateParser.V3),
      MultiPlateParser.scan_vertex_bounds (v :: vs) = some (lo, hi) →
      ((v :: vs).map MultiPlateParser.V3.x).min? = some lo.x ∧
      ((v :: vs).map MultiPlateParser.V3.y).min? = some lo.y ∧
      ((v :: vs).map MultiPlateParser.V3.z).min? = some lo.z ∧
      ((v :: vs).map MultiPlateParser.V3.x).max? = some hi.x ∧
      ((v :: vs).map MultiPlateParser.V3.y).max? = some hi.y ∧
      ((v :: vs).map MultiPlateParser.V3.z).max? = some hi.z) ∧
    (∀ (oid : String) (vs : List MultiPlateParser.V3) (t : List ℚ)
        (lo hi : MultiPlateParser.V3),
      MultiPlateParser.scan_vertex_bounds vs = some (lo, hi) →
      MultiPlateParser.calc_xml_bounds [(oid, vs)]
          [{ objectid := some oid, printable := none, transform := some t }] =
        (⟨lo.x + (MultiPlateParser.itemTranslation (some t)).x,
          lo.y + (MultiPlateParser.itemTranslation (some t)).y,
          lo.z + (MultiPlateParser.itemTranslation (some t)).z⟩,
         ⟨hi.x + (MultiPlateParser.itemTranslation (some t)).x,
          hi.y + (MultiPlateParser.itemTranslation (some t)).y,
          hi.z + (MultiPlateParser.itemTranslation (some t)).z⟩)) ∧
    MultiPlateParser.calc_xml_bounds [("1", Fixtures.cubeVerts)]
        [Fixtures.cubeItem] =
      (⟨10, 20, 30⟩, ⟨11, 21, 31⟩) := by
  refine ⟨?_, ?_, by with_unfolding_all decide⟩
  · intro v vs lo hi h
    rw [MultiPlateParser.scan_vertex_bounds, List.foldl_cons,
      show MultiPlateParser.scanStep none v = some (v, v) from rfl,
      scanStep_fold] at h
    simp only [Option.some.injEq, Prod.mk.injEq] at h
    obtain ⟨hlo, hhi⟩ := h
    subst hlo
    subst hhi
    exact ⟨rfl, rfl, rfl, rfl, rfl, rfl⟩
  · intro oid vs t lo hi h
    simp [MultiPlateParser.calc_xml_bounds, MultiPlateParser.boundsStep, h]

/-- C8 witness: the translation conjunct applied to the concrete unit cube
and translation `(10, 20, 30)`. -/
theorem C8_witness :
    MultiPlateParser.scan_vertex_bounds Fixtures.cubeVerts =
      some (⟨0, 0, 0⟩, ⟨1, 1, 1⟩) ∧
    MultiPlateParser.calc_xml_bounds [("1", Fixtures.cubeVerts)]
        [{ objectid := some "1", printable := none,
           transform := some [1, 0, 0, 0, 1, 0, 0, 0, 1, 10, 20, 30] }] =
      (⟨0 + (MultiPlateParser.itemTranslation
              (some [1, 0, 0, 0, 1, 0, 0, 0, 1, 10, 20, 30])).x,
        0 + (MultiPlateParser.itemTranslation
              (some [1, 0, 0, 0, 1, 0, 0, 0, 1, 10, 20, 30])).y,
        0 + (MultiPlateParser.itemTranslation
              (some [1, 0, 0, 0, 1, 0, 0, 0, 1, 10, 20, 30])).z⟩,
       ⟨1 + (MultiPlateParser.itemTranslation
              (some [1, 0, 0, 0, 1, 0, 0, 0, 1, 10, 20, 30])).x,
        1 + (MultiPlateParser.itemTranslation
              (some [1, 0, 0, 0, 1, 0, 0, 0, 1, 10, 20, 30])).y,
        1 + (MultiPlateParser.itemTranslation
              (some [1, 0, 0, 0, 1, 0, 0, 0, 1, 10, 20, 30])).z⟩) :=
  ⟨by with_unfolding_all decide,
   C8_bounds_apply_translation_to_extrema.2.1 "1" Fixtures.cubeVerts
     [1, 0, 0, 0, 1, 0, 0, 0, 1, 10, 20, 30] ⟨0, 0, 0⟩ ⟨1, 1, 1⟩ (by with_unfolding_all decide)⟩

/-! ## C1 -/

/-- C1 counterexample: `apply_uniform_scale_to_3mf` writes the destination
directly, so when a `.model` part fails to parse midway through the rewrite
the call errors out with a partially written archive left at the
destination — the destination (previously absent) is not unchanged on
error. -/
theorem C1_cex_scale_failure_leaves_partial_destination :
    (Rewrite.apply_uniform_scale_run Fixtures.scaleFailSrc 200 none).1 =
      .error () ∧
    (Rewrite.apply_uniform_scale_run Fixtures.scaleFailSrc 200 none).2 =
      some [("a.txt", .raw [5])] ∧
    (Rewrite.apply_uniform_scale_run Fixtures.scaleFailSrc 200 none).2 ≠
      none := by
  have h2 : (Rewrite.apply_uniform_scale_run Fixtures.scaleFailSrc 200 none).2 =
      some [("a.txt", .raw [5])] := by with_unfolding_all rfl
  refine ⟨by with_unfolding_all rfl, h2, ?_⟩
  rw [h2]
  exact fun hcon => Option.noConfusion hcon

/-- C1 (amended): only the profile-embedding rewrite is all-or-nothing — it
streams into a temporary file, unlinks it on error (leaving the destination
unchanged) and atomically replaces the destination only on full success.
The scaling, duplication and plate-extraction rewrites write the
destination directly, so a failure midway through their write loops leaves
a partially written archive at the destination. -/
theorem C1_only_embedding_rewrite_is_atomic :
    (∀ (sanitize : Scale3mf.PartData → Scale3mf.PartData)
        (src : List Rewrite.SrcPart) (json : Scale3mf.PartData)
        (d0 : Rewrite.Dest) (e : Unit),
      (Rewrite.copy_and_inject_settings_run sanitize src json d0).1 =
        .error e →
      (Rewrite.copy_and_inject_settings_run sanitize src json d0).2 = d0) ∧
    ((Rewrite.apply_uniform_scale_run Fixtures.scaleFailSrc 200 none).1 =
        .error () ∧
      (Rewrite.apply_uniform_scale_run Fixtures.scaleFailSrc 200 none).2 =
        some [("a.txt", .raw [5])]) ∧
    ((Rewrite.apply_copies_write_run (.raw [9]) none Fixtures.readFailSrc
          none).1 = .error () ∧
      (Rewrite.apply_copies_write_run (.raw [9]) none Fixtures.readFailSrc
          none).2 = some [("a.txt", .raw [5])]) ∧
    ((Rewrite.extract_plate_write_run (.raw [9]) Fixtures.readFailSrc
          none).1 = .error () ∧
      (Rewrite.extract_plate_write_run (.raw [9]) Fixtures.readFailSrc
          none).2 = some [("a.txt", .raw [5])]) := by
  refine ⟨?_, ⟨?_, ?_⟩, ⟨?_, ?_⟩, ?_, ?_⟩
  · intro sanitize src json d0 e h
    unfold Rewrite.copy_and_inject_settings_run at h ⊢
    rcases hw : Rewrite.directWriteLoop (Rewrite.injectStep sanitize) src []
      with ⟨r, written⟩
    rw [hw] at h
    cases r with
    | ok a => exact Except.noConfusion h
    | error e' => rfl
  all_goals with_unfolding_all rfl

/-- C1 witness: the atomicity conjunct applied to a concrete source whose
second entry cannot be read: the injection run fails and the destination
(absent before) is still absent. -/
theorem C1_witness :
    (Rewrite.copy_and_inject_settings_run id Fixtures.readFailSrc
        (Scale3mf.PartData.raw [0]) none).1 = .error () ∧
    (Rewrite.copy_and_inject_settings_run id Fixtures.readFailSrc
        (Scale3mf.PartData.raw [0]) none).2 = none :=
  ⟨by with_unfolding_all rfl,
   C1_only_embedding_rewrite_is_atomic.1 id Fixtures.readFailSrc
     (Scale3mf.PartData.raw [0]) none () (by with_unfolding_all rfl)⟩

/-! ## C4 -/

/-- C4: for every source archive, the scale rewrite with
`scale_percent = 100` is a no-op byte copy — the output equals the input —
for both the full-scale and the offset-only-scale operations. -/
theorem C4_scale_100_is_noop_byte_copy (src : Scale3mf.Archive) :
    Scale3mf.apply_uniform_scale_to_3mf src 100 = .ok src ∧
    Scale3mf.apply_layout_scale_to_3mf src 100 = .ok src := by
  have h : pyAbs ((100 : ℚ) - 100) < 1/1000 := by
    rw [show ((100 : ℚ) - 100) = 0 by ring, pyAbs_zero]
    norm_num
  constructor
  · unfold Scale3mf.apply_uniform_scale_to_3mf
    rw [if_pos h]
  · unfold Scale3mf.apply_layout_scale_to_3mf
    rw [if_pos h]

/-! ## C5 -/

/-- C5: under full scaling by factor `f`, every 12-element build-item
transform has its nine basis entries multiplied by `f` with the three
translation entries unchanged, and every 12-element component transform has
its three translation entries multiplied by `f` with the nine basis entries
unchanged; `_scale_model_xml` applies exactly these two rewrites to every
`item` and `component` element of the model document. -/
theorem C5_full_scale_scales_items_and_component_offsets (f : ℚ) :
    (∀ a b c d e g h i w tx ty tz : ℚ,
      Scale3mf.scale_transform [a, b, c, d, e, g, h, i, w, tx, ty, tz] f false =
        [a * f, b * f, c * f, d * f, e * f, g * f, h * f, i * f, w * f,
         tx, ty, tz] ∧
      Scale3mf.scale_component_translation_only
          [a, b, c, d, e, g, h, i, w, tx, ty, tz] f =
        [a, b, c, d, e, g, h, i, w, tx * f, ty * f, tz * f]) ∧
    ∀ doc : Scale3mf.Doc,
      Scale3mf.collectTransforms "item" (Scale3mf.scale_model_xml doc f) =
        (Scale3mf.collectTransforms "item" doc).map (fun t? =>
          some (match t? with
                | some t => Scale3mf.scale_transform t f false
                | none => Scale3mf.defaultScaleMatrix f)) ∧
      Scale3mf.collectTransforms "component" (Scale3mf.scale_model_xml doc f) =
        (Scale3mf.collectTransforms "component" doc).map
          (Option.map (fun t => Scale3mf.scale_component_translation_only t f)) := by
  constructor
  · intro a b c d e g h i w tx ty tz
    exact ⟨rfl, rfl⟩
  · intro doc
    constructor
    · rw [Scale3mf.scale_model_xml,
        collectTransforms_map _ (scaleModelElem_name f) "item",
        Scale3mf.collectTransforms, List.map_map]
      refine List.map_congr_left fun e he => ?_
      have hname : e.name = "item" := by
        have := List.of_mem_filter he
        simpa using this
      simp only [Function.comp, scaleModelElem_item f e hname]
    · rw [Scale3mf.scale_model_xml,
        collectTransforms_map _ (scaleModelElem_name f) "component",
        Scale3mf.collectTransforms, List.map_map]
      refine List.map_congr_left fun e he => ?_
      have hname : e.name = "component" := by
        have := List.of_mem_filter he
        simpa using this
      simp only [Function.comp, scaleModelElem_component f e hname]

end U1
